import Mathlib

/-!
Verification of the scoring and settlement pipeline of the "Light The Lamp"
fantasy pick'em application.

The definitions below are a shallow embedding of the TypeScript source:
* `src/lib/gameSimulator.ts` — the pure scoring functions
  (`calculateForwardScore`, `calculateDefensemanScore`, `calculateGoalieScore`,
  `calculateTeamScore`);
* the pick-settlement API route (the `pick/calculate` POST handler) — embedded
  as `settleGame` acting on explicit record-store state;
* the pick-submission API route (the `pick/create` POST handler) — embedded as
  `submitPick`;
* the draft rotation route (`league/[id]/rotate-draft`) — embedded as
  `rotateDraftOrder`;
* `fetchGameDetailsForScoring`'s scoring context shape from `src/lib/nhl-api.ts`.

The functions `calculatePlayerTotalPoints` and `calculateGoaliePoints` are
imported by the settlement route from `src/lib/scoring.ts`, a file that is not
part of the source tree we were given; they are modelled from the spec and
marked as such in their doc comments.

Numbers: database INTEGER columns that are always non-negative in the code
(goal counts, fantasy points, cumulative totals) are modelled as `Nat`;
database scores that the code compares against `null` are `Option Int`;
wall-clock instants are `Int`.
-/

namespace LTL

/-! ## Scoring engine from `src/lib/gameSimulator.ts` -/

/-- One goal line of `GamePlayerStats.goals` in `gameSimulator.ts`. -/
structure SimGoal where
  isShorthanded : Bool
  isOTGoal : Bool
deriving Repr, DecidableEq

/-- One assist line of `GamePlayerStats.assists` in `gameSimulator.ts`. -/
structure SimAssist where
  isShorthanded : Bool
deriving Repr, DecidableEq

/-- `GamePlayerStats` from `src/lib/types.ts` (the fields the scoring
functions read). -/
structure GamePlayerStats where
  goals : List SimGoal
  assists : List SimAssist
  position : String
deriving Repr, DecidableEq

/-- Game result fields read by `calculateGoalieScore` in `gameSimulator.ts`. -/
structure SimGame where
  teamGoals : Nat
  opponentGoals : Nat
  emptyNetGoals : Nat
  wentToOT : Bool
  shootoutOccurred : Bool
deriving Repr, DecidableEq

/-- Per-goal points of a forward in `calculateForwardScore`: start at 2,
an OT goal replaces the base with 7, shorthanded doubles the result. -/
def forwardGoalPoints (goal : SimGoal) : Nat :=
  let goalPoints := 2
  let goalPoints := if goal.isOTGoal then 7 else goalPoints
  let goalPoints := if goal.isShorthanded then goalPoints * 2 else goalPoints
  goalPoints

/-- Per-goal points of a defenseman in `calculateDefensemanScore`: base 3,
OT goal replaces the base with 8, shorthanded doubles the result. -/
def defensemanGoalPoints (goal : SimGoal) : Nat :=
  let goalPoints := 3
  let goalPoints := if goal.isOTGoal then 8 else goalPoints
  let goalPoints := if goal.isShorthanded then goalPoints * 2 else goalPoints
  goalPoints

/-- Per-assist points of a skater: base 1, shorthanded doubles. -/
def skaterAssistPoints (assist : SimAssist) : Nat :=
  let assistPoints := 1
  let assistPoints := if assist.isShorthanded then assistPoints * 2 else assistPoints
  assistPoints

/-- `calculateForwardScore` from `gameSimulator.ts`: accumulate goal points,
then assist points, into one running total. -/
def calculateForwardScore (playerStats : GamePlayerStats) : Nat :=
  let points := playerStats.goals.foldl (fun points goal => points + forwardGoalPoints goal) 0
  let points := playerStats.assists.foldl (fun points assist => points + skaterAssistPoints assist) points
  points

/-- `calculateDefensemanScore` from `gameSimulator.ts`. -/
def calculateDefensemanScore (playerStats : GamePlayerStats) : Nat :=
  let points := playerStats.goals.foldl (fun points goal => points + defensemanGoalPoints goal) 0
  let points := playerStats.assists.foldl (fun points assist => points + skaterAssistPoints assist) points
  points

/-- `calculateGoalieScore` from `gameSimulator.ts`: goals allowed are the
opponent's goals net of empty-net goals, computed in JavaScript signed
arithmetic (the difference can go negative, landing in the `<= 2` branch);
the simulated score excludes shootout goals by construction. 5 for a
shutout, 3 when the net count is at most two, nothing for three or more,
plus 5 per assist. -/
def calculateGoalieScore (playerStats : GamePlayerStats) (gameResult : SimGame) : Nat :=
  let goalsAllowed : Int :=
    (gameResult.opponentGoals : Int) - (gameResult.emptyNetGoals : Int)
  let points := if goalsAllowed = 0 then 5 else if goalsAllowed ≤ 2 then 3 else 0
  points + playerStats.assists.length * 5

/-- `calculateTeamScore` from `gameSimulator.ts`. -/
def calculateTeamScore (teamGoals : Nat) : Nat :=
  if teamGoals ≤ 3 then 0 else teamGoals

/-! ## The scoring library consumed by the settlement route

The settlement route imports `calculatePlayerTotalPoints` and
`calculateGoaliePoints` (with the event types below) from
`src/lib/scoring.ts`, which is missing from the source tree. -/

/-- `GoalEvent` shape consumed by `calculatePlayerTotalPoints` (the identity
fields carried by the source events are irrelevant to scoring and omitted). -/
structure GoalEvent where
  isOvertime : Bool
  isShorthanded : Bool
  isEmptyNet : Bool
deriving Repr, DecidableEq

/-- `AssistEvent` shape consumed by `calculatePlayerTotalPoints`. -/
structure AssistEvent where
  isOvertime : Bool
  isShorthanded : Bool
deriving Repr, DecidableEq

/-- `GoaliePerformance` shape consumed by `calculateGoaliePoints`. -/
structure GoaliePerformance where
  goalsAgainst : Nat
  assists : Nat
  emptyNetGoals : Nat
  shootoutGoals : Nat
deriving Repr, DecidableEq

/-- Modelled from the spec: per-goal points of `calculatePlayerTotalPoints`
from the missing `src/lib/scoring.ts`. Forward goal: base 2, overtime-deciding
goal replaces the base with 7; defenseman: base 3, overtime base 8; the base is
determined first and then doubled if the goal is shorthanded. -/
def goalEventPoints (position : String) (g : GoalEvent) : Nat :=
  let base :=
    if g.isOvertime then (if position == "Defense" then 8 else 7)
    else (if position == "Defense" then 3 else 2)
  if g.isShorthanded then base * 2 else base

/-- Modelled from the spec: per-assist points of `calculatePlayerTotalPoints`
from the missing `src/lib/scoring.ts`: base 1, shorthanded doubles, overtime
status does not affect assists. -/
def assistEventPoints (a : AssistEvent) : Nat :=
  if a.isShorthanded then 2 else 1

/-- Modelled from the spec: `calculatePlayerTotalPoints` from the missing
`src/lib/scoring.ts`. A skater's total is the sum of the points of their
individual goal events and assist events. -/
def calculatePlayerTotalPoints (position : String) (goals : List GoalEvent)
    (assists : List AssistEvent) : Nat :=
  (goals.map (goalEventPoints position)).sum + (assists.map assistEventPoints).sum

/-- Modelled from the spec: `calculateGoaliePoints` from the missing
`src/lib/scoring.ts`. The tier is computed on goals against net of empty-net
goals and excluding shootout-phase goals: 5 for a shutout, 3 for one or two,
0 for three or more; plus 5 points per assist recorded by the goalie. -/
def calculateGoaliePoints (perf : GoaliePerformance) : Nat :=
  let goalsAllowed := perf.goalsAgainst - perf.emptyNetGoals - perf.shootoutGoals
  let tier := if goalsAllowed = 0 then 5 else if goalsAllowed ≤ 2 then 3 else 0
  tier + perf.assists * 5

/-! ## NHL scoring context (`fetchGameDetailsForScoring` output shape) -/

/-- One skater line of `GameScoringData.playerStats` in `nhl-api.ts`. -/
structure PlayerStat where
  playerId : Nat
  goals : Nat
  assists : Nat
  shortHandedGoals : Nat
  powerPlayGoals : Nat
deriving Repr, DecidableEq

/-- One goalie line of `GameScoringData.goalieStats` in `nhl-api.ts`. -/
structure GoalieStat where
  playerId : Nat
  goalsAgainst : Nat
  assists : Nat
deriving Repr, DecidableEq

/-- `GameScoringData` from `nhl-api.ts` (the fields the settlement route
reads; `goalieStats` is optional in the source interface). -/
structure GameScoringData where
  isOvertime : Bool
  isShootout : Bool
  playerStats : List PlayerStat
  goalieStats : Option (List GoalieStat)
deriving Repr, DecidableEq

/-! ## Record-store rows -/

/-- `Player` row fields read during settlement. -/
structure Player where
  position : String
  nhlPlayerId : Option Nat
deriving Repr, DecidableEq

/-- `Pick` row as loaded by the settlement route (`include: { player }`),
so the joined `player` relation rides along. -/
structure Pick where
  id : String
  userId : String
  leagueId : String
  pickType : String
  playerId : Option String
  player : Option Player
  playerName : String
  pointsEarned : Nat
deriving Repr, DecidableEq

/-- `PlayerPerformance` row (`shortHandedPoints` is a nullable column; the
route reads it as `shortHandedPoints || 0`). -/
structure PlayerPerformance where
  playerId : String
  gameId : String
  goals : Nat
  assists : Nat
  points : Nat
  shortHandedPoints : Option Nat
deriving Repr, DecidableEq

/-- `LeagueMembership` row. -/
structure Membership where
  leagueId : String
  userId : String
  role : String
  draftPosition : Option Nat
  totalPoints : Nat
deriving Repr, DecidableEq

/-- `Game` row as loaded by the settlement route (`include: { picks }`). -/
structure Game where
  id : String
  status : String
  isHome : Bool
  homeScore : Option Int
  awayScore : Option Int
  nhlGamePk : Option Nat
  picks : List Pick
deriving Repr, DecidableEq

/-! ## Settlement route (the `pick/calculate` POST handler)

`settleGame` embeds the handler body after the input/`findUnique` plumbing:
the game with its picks, the `PlayerPerformance` store, the (possibly
unavailable) NHL scoring data, and the membership store are explicit inputs;
the row writes become the returned state. -/

/-- `const redWingsScore = game.isHome ? game.homeScore : game.awayScore`. -/
def redWingsScoreOf (game : Game) : Option Int :=
  if game.isHome then game.homeScore else game.awayScore

/-- `const opponentScore = game.isHome ? game.awayScore : game.homeScore`. -/
def opponentScoreOf (game : Game) : Option Int :=
  if game.isHome then game.awayScore else game.homeScore

/-- `redWingsScore !== null && opponentScore !== null && redWingsScore > opponentScore`. -/
def redWingsWonOf (game : Game) : Bool :=
  match redWingsScoreOf game, opponentScoreOf game with
  | some r, some o => r > o
  | _, _ => false

/-- Team-pick branch: `4 + (redWingsScore - 4)` when the score is present,
the team won and scored at least 4; otherwise 0. -/
def teamPoints (redWingsScore : Option Int) (redWingsWon : Bool) : Nat :=
  match redWingsScore with
  | some s => if redWingsWon && decide (4 ≤ s) then (4 + (s - 4)).toNat else 0
  | none => 0

/-- The zero-stat `PlayerPerformance` record the route creates when a picked
player has no performance row. -/
def zeroRecord (playerId gameId : String) : PlayerPerformance :=
  { playerId := playerId, gameId := gameId, goals := 0, assists := 0
    points := 0, shortHandedPoints := some 0 }

/-- `prisma.playerPerformance.findUnique({ playerId_gameId })` over the store. -/
def findPerformance (perfs : List PlayerPerformance) (playerId gameId : String) :
    Option PlayerPerformance :=
  perfs.find? (fun q => q.playerId == playerId && q.gameId == gameId)

/-- The performance record the route ends up scoring with: the stored row if
present, else the freshly created zero record. -/
def effPerf (gameId : String) (perfs : List PlayerPerformance) (playerId : String) :
    PlayerPerformance :=
  (findPerformance perfs playerId gameId).getD (zeroRecord playerId gameId)

/-- `const isOvertimeGame = scoringData?.isOvertime && !scoringData?.isShootout`
(`undefined` is falsy). -/
def isOvertimeGameOf (scoringData : Option GameScoringData) : Bool :=
  match scoringData with
  | some sd => sd.isOvertime && !sd.isShootout
  | none => false

/-- The goal-event construction loop: goal `i` of `totalGoals` is flagged as
the overtime goal exactly when the game context says overtime (and the index
is the last one), and as shorthanded while `i < shortHandedPoints`. -/
def buildGoalEvents (isOvertimeGame : Bool) (totalGoals shorthandedGoals : Nat) :
    List GoalEvent :=
  (List.range totalGoals).map (fun i =>
    { isOvertime := isOvertimeGame && decide (i = totalGoals - 1)
      isShorthanded := decide (i < shorthandedGoals)
      isEmptyNet := false })

/-- The assist-event construction loop: plain assists, no overtime or
shorthanded flags. -/
def buildAssistEvents (assists : Nat) : List AssistEvent :=
  (List.range assists).map (fun _ => { isOvertime := false, isShorthanded := false })

/-- `scoringData.goalieStats?.find(stat => stat.playerId === playerNhlId)`
(a `null` NHL id matches nothing under strict equality). -/
def findGoalieStat (sd : GameScoringData) (nhlId : Option Nat) : Option GoalieStat :=
  match sd.goalieStats with
  | some gs =>
    match nhlId with
    | some nid => gs.find? (fun s => s.playerId == nid)
    | none => none
  | none => none

/-- Goalie branch of the settlement route, given available scoring data: a
matching goalie stat is scored through `calculateGoaliePoints` with zero
empty-net goals and, if the game had a shootout, all goals against classified
as shootout goals; otherwise fall back to 5 points per recorded assist. -/
def goalieBranchPoints (sd : GameScoringData) (perf : PlayerPerformance)
    (nhlId : Option Nat) : Nat :=
  match findGoalieStat sd nhlId with
  | some goalieStat =>
    calculateGoaliePoints
      { goalsAgainst := goalieStat.goalsAgainst
        assists := goalieStat.assists
        emptyNetGoals := 0
        shootoutGoals := if sd.isShootout then goalieStat.goalsAgainst else 0 }
  | none => perf.assists * 5

/-- Points of a player pick given the effective performance record. The
goalie case with no scoring data is unreachable here: the route crashes
before this point (see `processPick`). -/
def scoreOfPick (sd : Option GameScoringData) (perf : PlayerPerformance)
    (player : Player) : Nat :=
  if player.position == "Goalie" then
    match sd with
    | some s => goalieBranchPoints s perf player.nhlPlayerId
    | none => 0
  else
    let isOvertimeGame := isOvertimeGameOf sd
    let goals := buildGoalEvents isOvertimeGame perf.goals (perf.shortHandedPoints.getD 0)
    let assists := buildAssistEvents perf.assists
    calculatePlayerTotalPoints player.position goals assists

/-- Outcome of processing one pick inside the settlement loop. `crashed`
models the uncaught TypeError the route throws when a goalie pick is scored
while `scoringData` is `null` (`scoringData.goalieStats` without the optional
chain used elsewhere); the zero-record creation has already happened at that
point, so the evolved performance store is carried along. -/
inductive PickResult where
  | crashed (perfs : List PlayerPerformance)
  | skipped (perfs : List PlayerPerformance)
  | scored (points : Nat) (perfs : List PlayerPerformance)
deriving Repr, DecidableEq

/-- One iteration of the settlement loop over a pick: team branch, the
missing-player skip, zero-record synthesis, then position dispatch. -/
def processPick (redWingsScore : Option Int) (redWingsWon : Bool)
    (sd : Option GameScoringData) (gameId : String)
    (perfs : List PlayerPerformance) (pick : Pick) : PickResult :=
  if pick.pickType == "team" then
    .scored (teamPoints redWingsScore redWingsWon) perfs
  else
    match pick.playerId, pick.player with
    | some playerId, some player =>
      let found := findPerformance perfs playerId gameId
      let perf := found.getD (zeroRecord playerId gameId)
      let perfs' := match found with
        | some _ => perfs
        | none => perfs ++ [zeroRecord playerId gameId]
      if player.position == "Goalie" && sd.isNone then .crashed perfs'
      else .scored (scoreOfPick sd perf player) perfs'
    | _, _ => .skipped perfs

/-- `userLeaguePoints.set(key, (userLeaguePoints.get(key) || 0) + pointsEarned)`
on the in-memory per-(user, league) accumulator. -/
def bumpULP (ulp : List ((String × String) × Nat)) (key : String × String)
    (pts : Nat) : List ((String × String) × Nat) :=
  match ulp.find? (fun e => e.1 == key) with
  | some _ => ulp.map (fun e => if e.1 == key then (e.1, e.2 + pts) else e)
  | none => ulp ++ [(key, pts)]

/-- Fixed per-run context of the settlement loop. -/
structure SettleCtx where
  redWingsScore : Option Int
  redWingsWon : Bool
  sd : Option GameScoringData
  gameId : String
deriving Repr, DecidableEq

/-- State coming out of the settlement loop. -/
structure LoopOut where
  picks : List Pick
  perfs : List PlayerPerformance
  ulp : List ((String × String) × Nat)
  crashed : Bool
deriving Repr, DecidableEq

/-- The `for (const pick of allPicks)` loop: skipped picks are left as they
are, a crash keeps the current pick and the rest untouched, a scored pick's
row is updated and its points accumulated under its (user, league) key. -/
def settleLoop (ctx : SettleCtx) :
    List Pick → List PlayerPerformance → List ((String × String) × Nat) → LoopOut
  | [], perfs, ulp => ⟨[], perfs, ulp, false⟩
  | pick :: rest, perfs, ulp =>
    match processPick ctx.redWingsScore ctx.redWingsWon ctx.sd ctx.gameId perfs pick with
    | .crashed perfs' => ⟨pick :: rest, perfs', ulp, true⟩
    | .skipped perfs' =>
      let out := settleLoop ctx rest perfs' ulp
      ⟨pick :: out.picks, out.perfs, out.ulp, out.crashed⟩
    | .scored pts perfs' =>
      let out := settleLoop ctx rest perfs'
        (bumpULP ulp (pick.userId, pick.leagueId) pts)
      ⟨{ pick with pointsEarned := pts } :: out.picks, out.perfs, out.ulp, out.crashed⟩

/-- `prisma.leagueMembership.updateMany({ where: { leagueId, userId }, data:
{ totalPoints: { increment } } })` for every accumulator entry. -/
def applyIncrements (ms : List Membership)
    (ulp : List ((String × String) × Nat)) : List Membership :=
  ulp.foldl (fun ms entry =>
    ms.map (fun m =>
      if m.userId == entry.1.1 && m.leagueId == entry.1.2 then
        { m with totalPoints := m.totalPoints + entry.2 }
      else m)) ms

/-- Errors surfaced by the settlement route. -/
inductive SettleError where
  | gameNotFinal
  | alreadySettled
  | internalError
deriving Repr, DecidableEq

/-- Full observable outcome of one settlement invocation: the HTTP-level
result plus the state of the three mutated stores. -/
structure SettleOutcome where
  result : Except SettleError Unit
  picks : List Pick
  perfs : List PlayerPerformance
  memberships : List Membership
deriving Repr

/-- The settlement route: final-status guard, the already-settled guard
(`some pick has pointsEarned > 0`), the per-pick loop, then the membership
increments. A crash inside the loop surfaces as the catch-all 500 with the
pick/performance writes made so far kept and no membership increment. -/
def settleGame (game : Game) (perfs : List PlayerPerformance)
    (sd : Option GameScoringData) (ms : List Membership) : SettleOutcome :=
  if game.status ≠ "final" then
    ⟨.error .gameNotFinal, game.picks, perfs, ms⟩
  else if game.picks.any (fun pick => pick.pointsEarned > 0) then
    ⟨.error .alreadySettled, game.picks, perfs, ms⟩
  else
    let ctx : SettleCtx :=
      ⟨redWingsScoreOf game, redWingsWonOf game, sd, game.id⟩
    let out := settleLoop ctx game.picks perfs []
    if out.crashed then ⟨.error .internalError, out.picks, out.perfs, ms⟩
    else ⟨.ok (), out.picks, out.perfs, applyIncrements ms out.ulp⟩

/-! ## Pick submission route (the `pick/create` POST handler)

`submitPick` embeds the handler after authentication: the request body, the
authenticated user id, the wall clock, a fresh row id for the create branch,
and the record stores are explicit inputs. -/

/-- `Game` row fields read by the submission route. -/
structure GameRow where
  id : String
  gameDate : Int
  status : String
deriving Repr, DecidableEq

/-- `Player` row as looked up by the submission route (only existence
matters there). -/
structure PlayerRow where
  id : String
deriving Repr, DecidableEq

/-- `Pick` row as stored (no joined relation). -/
structure PickRow where
  id : String
  userId : String
  leagueId : String
  gameId : String
  playerId : Option String
  playerName : String
  pickType : String
  pointsEarned : Nat
  lockedAt : Option Int
deriving Repr, DecidableEq

/-- Request body of the submission route. Absent JSON fields are `none`;
an empty string is falsy like the source's truthiness checks. -/
structure SubmitReq where
  leagueId : String
  gameId : String
  playerId : Option String
  playerName : String
  pickType : String
  targetUserId : Option String
deriving Repr, DecidableEq

/-- Errors surfaced by the submission route. `locked` covers both lock
rejections ("game has finished" and "game has started"). -/
inductive SubmitError where
  | validation
  | notMember
  | onlyAdminsPickForOthers
  | targetNotMember
  | gameNotFound
  | locked
  | playerNotFound
deriving Repr, DecidableEq

/-- Observable outcome of one submission: the returned pick or error, plus
the pick store afterwards. -/
structure SubmitOutcome where
  result : Except SubmitError PickRow
  picks : List PickRow
deriving Repr

/-- Membership lookup by the (leagueId, userId) unique key. -/
def findMembership (ms : List Membership) (leagueId userId : String) :
    Option Membership :=
  ms.find? (fun m => m.leagueId == leagueId && m.userId == userId)

/-- Pick lookup by the (userId, leagueId, gameId) unique key. -/
def findPick (picks : List PickRow) (userId leagueId gameId : String) :
    Option PickRow :=
  picks.find? (fun r => r.userId == userId && r.leagueId == leagueId && r.gameId == gameId)

/-- "All members have picked" check and the resulting `lockedAt` stamp on
every pick of the (league, game): `updateMany({ data: { lockedAt } })` when
the pick count equals the membership count. -/
def lockIfComplete (ms : List Membership) (leagueId gameId : String) (now : Int)
    (picks : List PickRow) : List PickRow :=
  let allMemberships := ms.filter (fun m => m.leagueId == leagueId)
  let allPicks := picks.filter (fun r => r.leagueId == leagueId && r.gameId == gameId)
  if allPicks.length = allMemberships.length then
    picks.map (fun r =>
      if r.leagueId == leagueId && r.gameId == gameId then
        { r with lockedAt := some now }
      else r)
  else picks

/-- The submission route body: validation, membership and target checks, the
game lookup, the non-admin lock check (`final`, or started while the status
is no longer `scheduled`), then upsert — update the existing (user, league,
game) row in place, or verify the player and create a fresh row — followed by
the all-picked lock sweep. -/
def submitPick (userId : String) (req : SubmitReq) (freshId : String) (now : Int)
    (ms : List Membership) (games : List GameRow) (players : List PlayerRow)
    (picks : List PickRow) : SubmitOutcome :=
  if req.leagueId == "" || req.gameId == "" || req.playerName == "" then
    ⟨.error .validation, picks⟩
  else
    let isTeamPick := req.pickType == "team"
    if !isTeamPick && (req.playerId.getD "") == "" then
      ⟨.error .validation, picks⟩
    else
      match findMembership ms req.leagueId userId with
      | none => ⟨.error .notMember, picks⟩
      | some membership =>
        let pickUserId := match req.targetUserId with
          | some t => if t == "" then userId else t
          | none => userId
        let isAdminUser := membership.role == "admin"
        let targetOk : Except SubmitError Unit :=
          match req.targetUserId with
          | some t =>
            if t == "" || t == userId then .ok ()
            else if !isAdminUser then .error .onlyAdminsPickForOthers
            else match findMembership ms req.leagueId t with
              | some _ => .ok ()
              | none => .error .targetNotMember
          | none => .ok ()
        match targetOk with
        | .error e => ⟨.error e, picks⟩
        | .ok () =>
          match games.find? (fun g => g.id == req.gameId) with
          | none => ⟨.error .gameNotFound, picks⟩
          | some game =>
            let gameStarted := decide (game.gameDate ≤ now)
            if !isAdminUser && game.status == "final" then
              ⟨.error .locked, picks⟩
            else if !isAdminUser && (gameStarted && !(game.status == "scheduled")) then
              ⟨.error .locked, picks⟩
            else
              match findPick picks pickUserId req.leagueId req.gameId with
              | some existingPick =>
                let updated : PickRow :=
                  { existingPick with
                    playerId := if isTeamPick then none else req.playerId
                    playerName := req.playerName
                    pickType := if isTeamPick then "team" else "player" }
                let picks' := picks.map (fun r => if r.id == existingPick.id then updated else r)
                let picks'' := lockIfComplete ms req.leagueId req.gameId now picks'
                ⟨.ok updated, picks''⟩
              | none =>
                let playerOk : Bool :=
                  if !isTeamPick && (req.playerId.getD "") != "" then
                    (players.find? (fun p => some p.id == req.playerId)).isSome
                  else true
                if !playerOk then ⟨.error .playerNotFound, picks⟩
                else
                  let newPick : PickRow :=
                    { id := freshId
                      userId := pickUserId
                      leagueId := req.leagueId
                      gameId := req.gameId
                      playerId := if isTeamPick then none else req.playerId
                      playerName := req.playerName
                      pickType := if isTeamPick then "team" else "player"
                      pointsEarned := 0
                      lockedAt := none }
                  let picks' := picks ++ [newPick]
                  let picks'' := lockIfComplete ms req.leagueId req.gameId now picks'
                  ⟨.ok newPick, picks''⟩

/-! ## Draft rotation route (`league/[id]/rotate-draft`) -/

/-- The rotation update: among the members that hold a draft position, the
member at position 1 moves to the last position (the count of positioned
members) and every other positioned member moves up by one; members without
a position are untouched. The source updates each row by primary key; the
single pass below applies the same per-row reassignment. -/
def rotateDraftOrder (ms : List Membership) : List Membership :=
  let membershipsWithPositions := ms.filter (fun m => m.draftPosition.isSome)
  let totalMembers := membershipsWithPositions.length
  ms.map (fun m =>
    match m.draftPosition with
    | some p => { m with draftPosition := some (if p = 1 then totalMembers else p - 1) }
    | none => m)

/-! ## Helper lemmas -/

theorem foldl_add_eq_sum {α : Type} (f : α → Nat) (l : List α) (init : Nat) :
    List.foldl (fun acc x => acc + f x) init l = init + (l.map f).sum := by
  induction l generalizing init with
  | nil => simp
  | cons a l ih => simp [List.foldl_cons, ih]; omega

/-- The goals-allowed tier of the goalie rules, stated in the spec's words:
5 for a shutout, 3 for one or two goals allowed, 0 for three or more. -/
def goalieTier (goalsAllowed : Nat) : Nat :=
  if goalsAllowed = 0 then 5 else if goalsAllowed ≤ 2 then 3 else 0

/-- The same tier over the signed goals-allowed count the simulator's goalie
scorer computes (JavaScript subtraction can go negative; a negative net
count falls into the at-most-two branch). -/
def goalieTierInt (goalsAllowed : Int) : Nat :=
  if goalsAllowed = 0 then 5 else if goalsAllowed ≤ 2 then 3 else 0

/-! ## Claim theorems -/

/-- Claim C3: a forward's goal is worth base 2, replaced by base 7 when it is
the overtime-deciding goal, and the base (determined first) is doubled when
the goal is shorthanded; a defenseman's goal has base 3 with overtime base 8,
doubled the same way; and a skater's total is the sum of the per-event points
over all of their goal and assist events. -/
theorem skater_scoring_formulas (stats : GamePlayerStats) (g : SimGoal) :
    calculateForwardScore stats =
      (stats.goals.map forwardGoalPoints).sum + (stats.assists.map skaterAssistPoints).sum
    ∧ calculateDefensemanScore stats =
      (stats.goals.map defensemanGoalPoints).sum + (stats.assists.map skaterAssistPoints).sum
    ∧ forwardGoalPoints g = (if g.isOTGoal then 7 else 2) * (if g.isShorthanded then 2 else 1)
    ∧ defensemanGoalPoints g = (if g.isOTGoal then 8 else 3) * (if g.isShorthanded then 2 else 1) := by
  refine ⟨?_, ?_, ?_, ?_⟩
  · simp only [calculateForwardScore, foldl_add_eq_sum]
    omega
  · simp only [calculateDefensemanScore, foldl_add_eq_sum]
    omega
  · cases g with
    | mk sh ot => cases sh <;> cases ot <;> rfl
  · cases g with
    | mk sh ot => cases sh <;> cases ot <;> rfl

/-- Claim C4: goalie points are the tier of the goals-allowed count — 5 for
0 allowed, 3 for 1 or 2, 0 for 3 or more — plus 5 per goalie assist, where the
tier count nets out empty-net goals (as a signed difference, exactly as the
simulator computes it) and excludes shootout-phase goals against; in
particular the settlement path that classifies all of a shootout game's
goals against as shootout goals lands in the shutout tier. -/
theorem goalie_scoring_tiers (stats : GamePlayerStats) (gameResult : SimGame)
    (perf : GoaliePerformance) (k ga a : Nat) :
    calculateGoalieScore stats gameResult
      = goalieTierInt ((gameResult.opponentGoals : Int) - (gameResult.emptyNetGoals : Int))
        + stats.assists.length * 5
    ∧ calculateGoaliePoints perf
      = goalieTier (perf.goalsAgainst - perf.emptyNetGoals - perf.shootoutGoals)
        + perf.assists * 5
    ∧ goalieTierInt 0 = 5 ∧ goalieTierInt 1 = 3 ∧ goalieTierInt 2 = 3
    ∧ goalieTierInt ((k : Int) + 3) = 0
    ∧ goalieTier 0 = 5 ∧ goalieTier 1 = 3 ∧ goalieTier 2 = 3 ∧ goalieTier (k + 3) = 0
    ∧ calculateGoaliePoints
        { goalsAgainst := ga, assists := a, emptyNetGoals := 0, shootoutGoals := ga }
      = 5 + a * 5 := by
  have h1 : ¬(k + 3 = 0) := by omega
  have h2 : ¬(k + 3 ≤ 2) := by omega
  have h3 : ¬((k : Int) + 3 = 0) := by omega
  have h4 : ¬((k : Int) + 3 ≤ 2) := by omega
  refine ⟨rfl, rfl, rfl, rfl, rfl, by simp [goalieTierInt, h3, h4],
    rfl, rfl, rfl, by simp [goalieTier, h1, h2], ?_⟩
  simp [calculateGoaliePoints]

/-- Claim C10: when every member of the league holds a draft position, one
rotation sends the member previously at position 1 to position n (the member
count) and every member previously at position p > 1 to position p − 1. -/
theorem rotate_draft_order_spec (ms : List Membership)
    (hall : ∀ m ∈ ms, m.draftPosition.isSome) (i p : Nat) (m : Membership)
    (hm : ms[i]? = some m) (hp : m.draftPosition = some p) :
    ∃ m', (rotateDraftOrder ms)[i]? = some m'
      ∧ m'.draftPosition = some (if p = 1 then ms.length else p - 1) := by
  have hfilter : ms.filter (fun m => m.draftPosition.isSome) = ms := by
    rw [List.filter_eq_self]
    intro m hm
    simpa using hall m hm
  refine ⟨{ m with draftPosition := some (if p = 1 then ms.length else p - 1) }, ?_, rfl⟩
  unfold rotateDraftOrder
  rw [hfilter]
  simp [List.getElem?_map, hm, hp]

/-- Claim C6: in the settlement goal-event loop, goal `i` of a player's tally
is flagged overtime-deciding exactly when the game context reports an
overtime, non-shootout contest and `i` is the last index; such a context is
the only one producing an overtime flag; and an overtime goal event carries
the 7-point (forward) or 8-point (defense) base. -/
theorem overtime_attribution (sd : Option GameScoringData) (totalGoals shg i : Nat)
    (hi : i < totalGoals) :
    ∃ e, (buildGoalEvents (isOvertimeGameOf sd) totalGoals shg)[i]? = some e
      ∧ (e.isOvertime = true ↔ (isOvertimeGameOf sd = true ∧ i = totalGoals - 1))
      ∧ (isOvertimeGameOf sd = true ↔
          ∃ s, sd = some s ∧ s.isOvertime = true ∧ s.isShootout = false)
      ∧ (e.isOvertime = true → e.isShorthanded = false →
          goalEventPoints "Forward" e = 7 ∧ goalEventPoints "Defense" e = 8) := by
  refine ⟨{ isOvertime := isOvertimeGameOf sd && decide (i = totalGoals - 1)
            isShorthanded := decide (i < shg), isEmptyNet := false }, ?_, ?_, ?_, ?_⟩
  · unfold buildGoalEvents
    simp [List.getElem?_map, List.getElem?_range, hi]
  · simp
  · cases sd with
    | none => simp [isOvertimeGameOf]
    | some s =>
      simp only [isOvertimeGameOf, Bool.and_eq_true, Bool.not_eq_true']
      constructor
      · rintro ⟨h1, h2⟩
        exact ⟨s, rfl, h1, h2⟩
      · rintro ⟨s', hs', h1, h2⟩
        cases hs'
        exact ⟨h1, h2⟩
  · intro hot hsh
    simp only at hot hsh
    simp [goalEventPoints, hot, hsh]

/-- A four-member league with draft positions 1, 2, 3, 4. -/
def exRotMs : List Membership :=
  [ { leagueId := "l1", userId := "u1", role := "member", draftPosition := some 1, totalPoints := 0 }
  , { leagueId := "l1", userId := "u2", role := "member", draftPosition := some 2, totalPoints := 0 }
  , { leagueId := "l1", userId := "u3", role := "member", draftPosition := some 3, totalPoints := 0 }
  , { leagueId := "l1", userId := "u4", role := "member", draftPosition := some 4, totalPoints := 0 } ]

/-- Witness for claim C10 at positions [1,2,3,4]: the member at position 1
receives position 4. -/
theorem rotate_draft_order_spec_witness :
    (∀ m ∈ exRotMs, m.draftPosition.isSome) ∧
    (∃ m', (rotateDraftOrder exRotMs)[0]? = some m'
      ∧ m'.draftPosition = some (if 1 = 1 then exRotMs.length else 1 - 1)) :=
  ⟨by decide,
   rotate_draft_order_spec exRotMs (by decide) 0 1
     { leagueId := "l1", userId := "u1", role := "member", draftPosition := some 1, totalPoints := 0 }
     rfl rfl⟩

/-- An overtime, non-shootout scoring context. -/
def exOTSd : GameScoringData :=
  { isOvertime := true, isShootout := false, playerStats := [], goalieStats := none }

/-- Witness for claim C6 at a two-goal tally in an overtime game, looking at
the last goal (index 1). -/
theorem overtime_attribution_witness :
    1 < 2 ∧
    (∃ e, (buildGoalEvents (isOvertimeGameOf (some exOTSd)) 2 1)[1]? = some e
      ∧ (e.isOvertime = true ↔ (isOvertimeGameOf (some exOTSd) = true ∧ 1 = 2 - 1))
      ∧ (isOvertimeGameOf (some exOTSd) = true ↔
          ∃ s, some exOTSd = some s ∧ s.isOvertime = true ∧ s.isShootout = false)
      ∧ (e.isOvertime = true → e.isShorthanded = false →
          goalEventPoints "Forward" e = 7 ∧ goalEventPoints "Defense" e = 8)) :=
  ⟨by decide, overtime_attribution (some exOTSd) 2 1 1 (by decide)⟩

/-! ## Settlement loop analysis

`recompute` is the pure value a pick's processing produces, expressed against
a fixed performance store through `effPerf`; `crashes` marks the picks on
which the route throws. These are verification artifacts used to state what
`settleLoop` does. -/

/-- The points the settlement loop computes for a pick, as a function of the
store (none for a skipped pick). -/
def recompute (rs : Option Int) (won : Bool) (sd : Option GameScoringData)
    (gid : String) (perfs : List PlayerPerformance) (p : Pick) : Option Nat :=
  if p.pickType == "team" then some (teamPoints rs won)
  else
    match p.playerId, p.player with
    | some pid, some pl => some (scoreOfPick sd (effPerf gid perfs pid) pl)
    | _, _ => none

/-- The picks on which the route throws: a goalie pick scored while the NHL
scoring data is unavailable. -/
def crashes (sd : Option GameScoringData) (p : Pick) : Bool :=
  !(p.pickType == "team") &&
  (match p.playerId, p.player with
   | some _, some pl => pl.position == "Goalie" && sd.isNone
   | _, _ => false)

/-- The performance store carried by a `PickResult`. -/
def PickResult.perfsOf : PickResult → List PlayerPerformance
  | .crashed perfs => perfs
  | .skipped perfs => perfs
  | .scored _ perfs => perfs

theorem effPerf_append_zero {perfs : List PlayerPerformance} {pid gid : String}
    (hnone : findPerformance perfs pid gid = none) (pid' : String) :
    effPerf gid (perfs ++ [zeroRecord pid gid]) pid' = effPerf gid perfs pid' := by
  unfold effPerf findPerformance at *
  rw [List.find?_append]
  by_cases hpp : pid = pid'
  · subst hpp
    rw [hnone]
    simp [zeroRecord]
  · have hz : ((zeroRecord pid gid).playerId == pid') = false := by
      simp only [zeroRecord, beq_eq_false_iff_ne, ne_eq]
      exact hpp
    cases hfind : perfs.find? (fun q => q.playerId == pid' && q.gameId == gid) with
    | some r => simp [hfind]
    | none => simp [hfind, List.find?, hz]

theorem recompute_points_update (rs : Option Int) (won : Bool)
    (sd : Option GameScoringData) (gid : String) (perfs : List PlayerPerformance)
    (p : Pick) (x : Nat) :
    recompute rs won sd gid perfs { p with pointsEarned := x }
      = recompute rs won sd gid perfs p := rfl

theorem crashes_points_update (sd : Option GameScoringData) (p : Pick) (x : Nat) :
    crashes sd { p with pointsEarned := x } = crashes sd p := rfl

theorem recompute_congr (rs : Option Int) (won : Bool) (sd : Option GameScoringData)
    (gid : String) {perfs₁ perfs₂ : List PlayerPerformance} (p : Pick)
    (h : ∀ pid, effPerf gid perfs₂ pid = effPerf gid perfs₁ pid) :
    recompute rs won sd gid perfs₂ p = recompute rs won sd gid perfs₁ p := by
  unfold recompute
  by_cases ht : p.pickType == "team"
  · simp [ht]
  · simp only [ht, if_neg, Bool.false_eq_true]
    cases p.playerId with
    | none => rfl
    | some pid =>
      cases p.player with
      | none => rfl
      | some pl => simp [h pid]

theorem processPick_effPerf (rs : Option Int) (won : Bool)
    (sd : Option GameScoringData) (gid : String) (perfs : List PlayerPerformance)
    (p : Pick) (pid' : String) :
    effPerf gid (processPick rs won sd gid perfs p).perfsOf pid'
      = effPerf gid perfs pid' := by
  unfold processPick
  by_cases ht : p.pickType == "team"
  · simp [ht, PickResult.perfsOf]
  · simp only [ht, Bool.false_eq_true, if_neg, if_false]
    cases hpid : p.playerId with
    | none => simp [PickResult.perfsOf]
    | some pid =>
      cases hpl : p.player with
      | none => simp [PickResult.perfsOf]
      | some pl =>
        simp only
        cases hfound : findPerformance perfs pid gid with
        | some r =>
          by_cases hg : pl.position == "Goalie" && sd.isNone <;>
            simp [hfound, hg, PickResult.perfsOf]
        | none =>
          by_cases hg : pl.position == "Goalie" && sd.isNone <;>
            simp [hfound, hg, PickResult.perfsOf, effPerf_append_zero hfound]

theorem processPick_char (rs : Option Int) (won : Bool) (sd : Option GameScoringData)
    (gid : String) (perfs : List PlayerPerformance) (p : Pick) :
    (crashes sd p = true ∧ ∃ q, processPick rs won sd gid perfs p = .crashed q)
  ∨ (crashes sd p = false ∧ recompute rs won sd gid perfs p = none
      ∧ processPick rs won sd gid perfs p = .skipped perfs)
  ∨ (crashes sd p = false ∧ ∃ pts q, recompute rs won sd gid perfs p = some pts
      ∧ processPick rs won sd gid perfs p = .scored pts q) := by
  unfold processPick crashes recompute
  by_cases ht : p.pickType == "team"
  · right; right
    simp [ht]
  · simp only [ht, Bool.false_eq_true, if_neg, if_false, Bool.not_false, Bool.true_and]
    cases hpid : p.playerId with
    | none => right; left; simp
    | some pid =>
      cases hpl : p.player with
      | none => right; left; simp
      | some pl =>
        by_cases hg : pl.position == "Goalie" && sd.isNone
        · left
          refine ⟨hg, ?_⟩
          simp only [hg, if_pos]
          exact ⟨_, rfl⟩
        · right; right
          refine ⟨Bool.eq_false_iff.mpr hg, ?_⟩
          simp only [hg, Bool.false_eq_true, if_neg, if_false]
          exact ⟨_, _, rfl, rfl⟩

/-- The per-element relation between an input pick and its state after one
settlement run whose per-pick values are read off a fixed store `perfs`. -/
def SettledRel (ctx : SettleCtx) (perfs : List PlayerPerformance) (p p' : Pick) : Prop :=
  crashes ctx.sd p = false ∧
  match recompute ctx.redWingsScore ctx.redWingsWon ctx.sd ctx.gameId perfs p with
  | some pts => p' = { p with pointsEarned := pts }
  | none => p' = p

theorem settleLoop_effPerf (ctx : SettleCtx) :
    ∀ (picks : List Pick) (perfs : List PlayerPerformance)
      (ulp : List ((String × String) × Nat)) (pid : String),
    effPerf ctx.gameId (settleLoop ctx picks perfs ulp).perfs pid
      = effPerf ctx.gameId perfs pid := by
  intro picks
  induction picks with
  | nil => intro perfs ulp pid; rfl
  | cons p rest ih =>
    intro perfs ulp pid
    have hpp := processPick_effPerf ctx.redWingsScore ctx.redWingsWon ctx.sd ctx.gameId perfs p pid
    simp only [settleLoop]
    cases hproc : processPick ctx.redWingsScore ctx.redWingsWon ctx.sd ctx.gameId perfs p with
    | crashed q =>
      rw [hproc] at hpp
      simpa [PickResult.perfsOf] using hpp
    | skipped q =>
      rw [hproc] at hpp
      simp only [PickResult.perfsOf] at hpp
      simpa [ih q ulp pid] using hpp
    | scored pts q =>
      rw [hproc] at hpp
      simp only [PickResult.perfsOf] at hpp
      simpa [ih q (bumpULP ulp (p.userId, p.leagueId) pts) pid] using hpp

theorem settleLoop_settled (ctx : SettleCtx) :
    ∀ (picks : List Pick) (perfs : List PlayerPerformance)
      (ulp : List ((String × String) × Nat)),
    (settleLoop ctx picks perfs ulp).crashed = false →
    List.Forall₂ (SettledRel ctx perfs) picks (settleLoop ctx picks perfs ulp).picks := by
  intro picks
  induction picks with
  | nil => intro perfs ulp _; exact List.Forall₂.nil
  | cons p rest ih =>
    intro perfs ulp hnc
    rcases processPick_char ctx.redWingsScore ctx.redWingsWon ctx.sd ctx.gameId perfs p with
      ⟨hc, q, hproc⟩ | ⟨hc, hrec, hproc⟩ | ⟨hc, pts, q, hrec, hproc⟩
    · simp [settleLoop, hproc] at hnc
    · simp only [settleLoop, hproc] at hnc ⊢
      refine List.Forall₂.cons ?_ (ih perfs ulp hnc)
      unfold SettledRel
      rw [hrec]
      exact ⟨hc, rfl⟩
    · simp only [settleLoop, hproc] at hnc ⊢
      have heq : ∀ pid', effPerf ctx.gameId q pid' = effPerf ctx.gameId perfs pid' := by
        intro pid'
        have hpp := processPick_effPerf ctx.redWingsScore ctx.redWingsWon ctx.sd ctx.gameId perfs p pid'
        rw [hproc] at hpp
        simpa [PickResult.perfsOf] using hpp
      refine List.Forall₂.cons ?_ ?_
      · unfold SettledRel
        rw [hrec]
        exact ⟨hc, rfl⟩
      · refine (ih q (bumpULP ulp (p.userId, p.leagueId) pts) hnc).imp ?_
        intro a b hab
        unfold SettledRel at hab ⊢
        rwa [recompute_congr ctx.redWingsScore ctx.redWingsWon ctx.sd ctx.gameId a heq] at hab

/-- The settlement context `settleGame` runs its loop under. -/
def settleCtxOf (game : Game) (sd : Option GameScoringData) : SettleCtx :=
  ⟨redWingsScoreOf game, redWingsWonOf game, sd, game.id⟩

theorem settleGame_ok_spec (game : Game) (perfs : List PlayerPerformance)
    (sd : Option GameScoringData) (ms : List Membership)
    (hok : (settleGame game perfs sd ms).result = .ok ()) :
    game.status = "final"
    ∧ game.picks.any (fun pick => pick.pointsEarned > 0) = false
    ∧ (settleLoop (settleCtxOf game sd) game.picks perfs []).crashed = false
    ∧ (settleGame game perfs sd ms).picks
        = (settleLoop (settleCtxOf game sd) game.picks perfs []).picks
    ∧ (settleGame game perfs sd ms).perfs
        = (settleLoop (settleCtxOf game sd) game.picks perfs []).perfs
    ∧ (settleGame game perfs sd ms).memberships
        = applyIncrements ms (settleLoop (settleCtxOf game sd) game.picks perfs []).ulp := by
  unfold settleGame settleCtxOf at *
  by_cases hst : game.status = "final"
  · simp only [hst, ne_eq, not_true_eq_false, if_false, if_neg]
    by_cases hguard : game.picks.any (fun pick => pick.pointsEarned > 0)
    · simp [hst, hguard] at hok
    · simp only [hst, hguard, Bool.false_eq_true, if_neg, if_false] at hok ⊢
      by_cases hcr : (settleLoop ⟨redWingsScoreOf game, redWingsWonOf game, sd, game.id⟩
          game.picks perfs []).crashed
      · simp [hcr] at hok
      · simp only [hcr, Bool.false_eq_true, if_neg, if_false]
        exact ⟨by trivial, by simp, by simp,
          by trivial, by trivial, by trivial⟩
  · simp [hst] at hok

theorem forall₂_getElem? {α β : Type} {R : α → β → Prop} :
    ∀ {l₁ : List α} {l₂ : List β}, List.Forall₂ R l₁ l₂ →
    ∀ {i : Nat} {a : α}, l₁[i]? = some a → ∃ b, l₂[i]? = some b ∧ R a b := by
  intro l₁ l₂ h
  induction h with
  | nil => intro i a ha; simp at ha
  | cons hr hrest ih =>
    intro i a ha
    cases i with
    | zero =>
      simp only [List.getElem?_cons_zero, Option.some.injEq] at ha
      subst ha
      exact ⟨_, by simp, hr⟩
    | succ j =>
      simp only [List.getElem?_cons_succ] at ha ⊢
      exact ih ha

/-- Claim C5: a team pick settles to points equal to the team's goal total
when the score is recorded, the team won and it scored at least 4 goals
(`4 + (goals − 4)` collapses to the goal total), and to 0 points otherwise. -/
theorem team_pick_settlement (game : Game) (perfs : List PlayerPerformance)
    (sd : Option GameScoringData) (ms : List Membership)
    (hok : (settleGame game perfs sd ms).result = .ok ())
    (i : Nat) (p : Pick) (hp : game.picks[i]? = some p)
    (hteam : p.pickType = "team") (s : Int) (hs : redWingsScoreOf game = some s) :
    (settleGame game perfs sd ms).picks[i]?
      = some { p with pointsEarned :=
          if redWingsWonOf game && decide (4 ≤ s) then (4 + (s - 4)).toNat else 0 }
    ∧ (redWingsWonOf game = true → 4 ≤ s → (4 + (s - 4)).toNat = s.toNat) := by
  obtain ⟨hfin, hguard, hcr, hpicks, _, _⟩ := settleGame_ok_spec game perfs sd ms hok
  have hsettled := settleLoop_settled (settleCtxOf game sd) game.picks perfs [] hcr
  obtain ⟨p', hp', hrel⟩ := forall₂_getElem? hsettled hp
  rw [hpicks, hp']
  unfold SettledRel at hrel
  have hrec : recompute (settleCtxOf game sd).redWingsScore (settleCtxOf game sd).redWingsWon
      (settleCtxOf game sd).sd (settleCtxOf game sd).gameId perfs p
      = some (teamPoints (redWingsScoreOf game) (redWingsWonOf game)) := by
    unfold recompute
    simp [hteam, settleCtxOf]
  rw [hrec] at hrel
  obtain ⟨-, hrel⟩ := hrel
  subst hrel
  constructor
  · unfold teamPoints
    rw [hs]
  · intro hwon hle
    omega

theorem bumpULP_zero {ulp : List ((String × String) × Nat)} {key : String × String}
    (hu : ∀ e ∈ ulp, e.2 = 0) :
    ∀ e ∈ bumpULP ulp key 0, e.2 = 0 := by
  unfold bumpULP
  cases hfind : ulp.find? (fun e => e.1 == key) with
  | some e0 =>
    intro e he
    obtain ⟨a, ha, rfl⟩ := List.mem_map.mp he
    by_cases hk : a.1 == key
    · simpa [hk] using hu a ha
    · simpa [hk] using hu a ha
  | none =>
    intro e he
    rcases List.mem_append.mp he with h | h
    · exact hu e h
    · simp at h
      subst h
      rfl

theorem incrRow_zero (key : String × String) (m : Membership) :
    (if m.userId == key.1 && m.leagueId == key.2 then
      { m with totalPoints := m.totalPoints + 0 } else m) = m := by
  cases m with
  | mk l u r d t => simp

theorem applyIncrements_zero :
    ∀ (ulp : List ((String × String) × Nat)) (ms : List Membership),
    (∀ e ∈ ulp, e.2 = 0) → applyIncrements ms ulp = ms := by
  intro ulp
  induction ulp with
  | nil => intro ms _; rfl
  | cons e u ih =>
    intro ms hu
    have he : e.2 = 0 := hu e (List.mem_cons_self e u)
    unfold applyIncrements at *
    rw [List.foldl_cons]
    have hstep : (ms.map (fun m =>
        if m.userId == e.1.1 && m.leagueId == e.1.2 then
          { m with totalPoints := m.totalPoints + e.2 }
        else m)) = ms := by
      rw [he]
      have := fun m => incrRow_zero e.1 m
      calc ms.map (fun m =>
            if m.userId == e.1.1 && m.leagueId == e.1.2 then
              { m with totalPoints := m.totalPoints + 0 } else m)
          = ms.map id := List.map_congr_left (fun m _ => this m)
        _ = ms := List.map_id ms
    rw [hstep]
    exact ih ms (fun x hx => hu x (List.mem_cons_of_mem e hx))

theorem forall₂_mem_right {α β : Type} {R : α → β → Prop} :
    ∀ {l₁ : List α} {l₂ : List β}, List.Forall₂ R l₁ l₂ →
    ∀ {b : β}, b ∈ l₂ → ∃ a ∈ l₁, R a b := by
  intro l₁ l₂ h
  induction h with
  | nil => intro b hb; simp at hb
  | cons hr hrest ih =>
    intro b hb
    rcases List.mem_cons.mp hb with rfl | hb'
    · exact ⟨_, List.mem_cons_self _ _, hr⟩
    · obtain ⟨a, ha, hab⟩ := ih hb'
      exact ⟨a, List.mem_cons_of_mem _ ha, hab⟩

theorem settleLoop_replay (ctx : SettleCtx) :
    ∀ (ps : List Pick) (perfs : List PlayerPerformance)
      (ulp : List ((String × String) × Nat)),
    (∀ p ∈ ps, crashes ctx.sd p = false) →
    (∀ p ∈ ps, ∀ pts,
      recompute ctx.redWingsScore ctx.redWingsWon ctx.sd ctx.gameId perfs p = some pts →
      pts = p.pointsEarned) →
    (∀ p ∈ ps, p.pointsEarned = 0) →
    (∀ e ∈ ulp, e.2 = 0) →
    (settleLoop ctx ps perfs ulp).picks = ps
    ∧ (settleLoop ctx ps perfs ulp).crashed = false
    ∧ ∀ e ∈ (settleLoop ctx ps perfs ulp).ulp, e.2 = 0 := by
  intro ps
  induction ps with
  | nil => intro perfs ulp _ _ _ hu; exact ⟨rfl, rfl, hu⟩
  | cons p rest ih =>
    intro perfs ulp hnc hz hz0 hu
    rcases processPick_char ctx.redWingsScore ctx.redWingsWon ctx.sd ctx.gameId perfs p with
      ⟨hc, q, hproc⟩ | ⟨hc, hrec, hproc⟩ | ⟨hc, pts, q, hrec, hproc⟩
    · rw [hnc p (List.mem_cons_self p rest)] at hc
      simp at hc
    · simp only [settleLoop, hproc]
      obtain ⟨h1, h2, h3⟩ := ih perfs ulp
        (fun x hx => hnc x (List.mem_cons_of_mem p hx))
        (fun x hx => hz x (List.mem_cons_of_mem p hx))
        (fun x hx => hz0 x (List.mem_cons_of_mem p hx)) hu
      exact ⟨by rw [h1], h2, h3⟩
    · have hpts : pts = p.pointsEarned := hz p (List.mem_cons_self p rest) pts hrec
      have hp0 : p.pointsEarned = 0 := hz0 p (List.mem_cons_self p rest)
      have heq : ∀ pid', effPerf ctx.gameId q pid' = effPerf ctx.gameId perfs pid' := by
        intro pid'
        have hpp := processPick_effPerf ctx.redWingsScore ctx.redWingsWon
          ctx.sd ctx.gameId perfs p pid'
        rw [hproc] at hpp
        simpa [PickResult.perfsOf] using hpp
      have hpts0 : pts = 0 := hpts.trans hp0
      subst hpts0
      simp only [settleLoop, hproc]
      obtain ⟨h1, h2, h3⟩ := ih q (bumpULP ulp (p.userId, p.leagueId) 0)
        (fun x hx => hnc x (List.mem_cons_of_mem p hx))
        (fun x hx pts' hr' => hz x (List.mem_cons_of_mem p hx) pts'
          (by rwa [recompute_congr ctx.redWingsScore ctx.redWingsWon ctx.sd ctx.gameId x heq]
              at hr'))
        (fun x hx => hz0 x (List.mem_cons_of_mem p hx))
        (bumpULP_zero hu)
      refine ⟨?_, h2, h3⟩
      rw [h1]
      have hpe : { p with pointsEarned := 0 } = p := by
        rw [← hp0]
      rw [hpe]

theorem settleGame_already_path (game : Game) (perfs : List PlayerPerformance)
    (sd : Option GameScoringData) (ms : List Membership)
    (hfin : game.status = "final")
    (hany : game.picks.any (fun pick => pick.pointsEarned > 0) = true) :
    settleGame game perfs sd ms = ⟨.error .alreadySettled, game.picks, perfs, ms⟩ := by
  unfold settleGame
  simp [hfin, hany]

theorem settleGame_ok_path (game : Game) (perfs : List PlayerPerformance)
    (sd : Option GameScoringData) (ms : List Membership)
    (hfin : game.status = "final")
    (hany : game.picks.any (fun pick => pick.pointsEarned > 0) = false)
    (hcr : (settleLoop (settleCtxOf game sd) game.picks perfs []).crashed = false) :
    settleGame game perfs sd ms =
      ⟨.ok (), (settleLoop (settleCtxOf game sd) game.picks perfs []).picks,
        (settleLoop (settleCtxOf game sd) game.picks perfs []).perfs,
        applyIncrements ms (settleLoop (settleCtxOf game sd) game.picks perfs []).ulp⟩ := by
  unfold settleGame settleCtxOf at *
  simp [hfin, hany, hcr]

/-- Claim C1: on a final game where some pick already carries nonzero points,
`settleGame` fails with the already-settled error and leaves every pick's
points and every membership's total unchanged; and a second `settleGame`
call after a successful one leaves every member's `totalPoints` exactly as
the first call left them. -/
theorem settlement_idempotent (game : Game) (perfs : List PlayerPerformance)
    (sd : Option GameScoringData) (ms : List Membership)
    (hfin : game.status = "final") :
    ((∃ p ∈ game.picks, p.pointsEarned > 0) →
      settleGame game perfs sd ms = ⟨.error .alreadySettled, game.picks, perfs, ms⟩)
    ∧ ((settleGame game perfs sd ms).result = .ok () →
        (settleGame { game with picks := (settleGame game perfs sd ms).picks }
            (settleGame game perfs sd ms).perfs sd
            (settleGame game perfs sd ms).memberships).memberships
          = (settleGame game perfs sd ms).memberships) := by
  constructor
  · rintro ⟨p, hp, hgt⟩
    exact settleGame_already_path game perfs sd ms hfin
      (List.any_eq_true.mpr ⟨p, hp, by simpa using hgt⟩)
  · intro hok
    obtain ⟨-, hguard, hcr, hpicks, hperfs, hmem⟩ := settleGame_ok_spec game perfs sd ms hok
    have hsettled := settleLoop_settled (settleCtxOf game sd) game.picks perfs [] hcr
    by_cases hb : ((settleGame game perfs sd ms).picks).any
        (fun pick => pick.pointsEarned > 0)
    · have h2 := settleGame_already_path { game with picks := (settleGame game perfs sd ms).picks }
        (settleGame game perfs sd ms).perfs sd (settleGame game perfs sd ms).memberships
        hfin hb
      rw [h2]
    · have hb' : ((settleGame game perfs sd ms).picks).any
          (fun pick => pick.pointsEarned > 0) = false := by
        simpa using hb
      have hz0 : ∀ p ∈ (settleGame game perfs sd ms).picks, p.pointsEarned = 0 := by
        intro p hp
        have := List.any_eq_false.mp hb' p hp
        simpa using this
      have heff : ∀ pid, effPerf (settleCtxOf game sd).gameId
          (settleGame game perfs sd ms).perfs pid
          = effPerf (settleCtxOf game sd).gameId perfs pid := by
        intro pid
        rw [hperfs]
        exact settleLoop_effPerf (settleCtxOf game sd) game.picks perfs [] pid
      have hnc : ∀ p ∈ (settleGame game perfs sd ms).picks,
          crashes (settleCtxOf game sd).sd p = false := by
        intro p' hp'
        rw [hpicks] at hp'
        obtain ⟨p, hpmem, hrel⟩ := forall₂_mem_right hsettled hp'
        unfold SettledRel at hrel
        obtain ⟨hcf, hrel⟩ := hrel
        cases hrec : recompute (settleCtxOf game sd).redWingsScore
            (settleCtxOf game sd).redWingsWon (settleCtxOf game sd).sd
            (settleCtxOf game sd).gameId perfs p with
        | some pts => rw [hrec] at hrel; subst hrel; rwa [crashes_points_update]
        | none => rw [hrec] at hrel; subst hrel; exact hcf
      have hz : ∀ p ∈ (settleGame game perfs sd ms).picks, ∀ pts,
          recompute (settleCtxOf game sd).redWingsScore (settleCtxOf game sd).redWingsWon
            (settleCtxOf game sd).sd (settleCtxOf game sd).gameId
            (settleGame game perfs sd ms).perfs p = some pts →
          pts = p.pointsEarned := by
        intro p' hp' pts hr
        rw [recompute_congr (settleCtxOf game sd).redWingsScore (settleCtxOf game sd).redWingsWon
          (settleCtxOf game sd).sd (settleCtxOf game sd).gameId p' heff] at hr
        rw [hpicks] at hp'
        obtain ⟨p, hpmem, hrel⟩ := forall₂_mem_right hsettled hp'
        unfold SettledRel at hrel
        obtain ⟨-, hrel⟩ := hrel
        cases hrec : recompute (settleCtxOf game sd).redWingsScore
            (settleCtxOf game sd).redWingsWon (settleCtxOf game sd).sd
            (settleCtxOf game sd).gameId perfs p with
        | some pts₀ =>
          rw [hrec] at hrel
          subst hrel
          rw [recompute_points_update, hrec] at hr
          simpa using hr.symm
        | none =>
          rw [hrec] at hrel
          subst hrel
          rw [hrec] at hr
          simp at hr
      obtain ⟨hrp, hrc, hru⟩ := settleLoop_replay (settleCtxOf game sd)
        (settleGame game perfs sd ms).picks (settleGame game perfs sd ms).perfs []
        hnc hz hz0 (by simp)
      have h2 := settleGame_ok_path { game with picks := (settleGame game perfs sd ms).picks }
        (settleGame game perfs sd ms).perfs sd (settleGame game perfs sd ms).memberships
        hfin hb' hrc
      rw [h2]
      exact applyIncrements_zero _ _ hru

/-- A team pick that has not been settled yet. -/
def exC1Pick : Pick :=
  { id := "p1", userId := "u1", leagueId := "l1", pickType := "team"
    playerId := none, player := none, playerName := "Red Wings", pointsEarned := 0 }

/-- A final 5–2 home win with one unsettled team pick. -/
def exC1Game : Game :=
  { id := "g1", status := "final", isHome := true, homeScore := some 5
    awayScore := some 2, nhlGamePk := none, picks := [exC1Pick] }

/-- The same game with the pick already carrying points. -/
def exC1SettledGame : Game :=
  { exC1Game with picks := [{ exC1Pick with pointsEarned := 3 }] }

/-- The one membership behind the pick. -/
def exC1Ms : List Membership :=
  [ { leagueId := "l1", userId := "u1", role := "member"
      draftPosition := none, totalPoints := 0 } ]

/-- Witness for claim C1: on the already-settled game the call errors and
changes nothing, and settling the fresh game twice leaves the standings of
the first call untouched. -/
theorem settlement_idempotent_witness :
    (settleGame exC1SettledGame [] none exC1Ms
      = ⟨.error .alreadySettled, exC1SettledGame.picks, [], exC1Ms⟩)
    ∧ ((settleGame exC1Game [] none exC1Ms).result = .ok ()
    ∧ (settleGame { exC1Game with picks := (settleGame exC1Game [] none exC1Ms).picks }
          (settleGame exC1Game [] none exC1Ms).perfs none
          (settleGame exC1Game [] none exC1Ms).memberships).memberships
        = (settleGame exC1Game [] none exC1Ms).memberships) :=
  ⟨(settlement_idempotent exC1SettledGame [] none exC1Ms rfl).1
     ⟨{ exC1Pick with pointsEarned := 3 }, by decide, by decide⟩,
   rfl,
   (settlement_idempotent exC1Game [] none exC1Ms rfl).2 rfl⟩

/-- A team pick used to witness the team formula. -/
def exC5Pick : Pick :=
  { id := "p5", userId := "u5", leagueId := "l5", pickType := "team"
    playerId := none, player := none, playerName := "Red Wings", pointsEarned := 0 }

/-- A final 5–2 home win holding the witness team pick. -/
def exC5Game : Game :=
  { id := "g5", status := "final", isHome := true, homeScore := some 5
    awayScore := some 2, nhlGamePk := none, picks := [exC5Pick] }

/-- Witness for claim C5: the 5–2 winning team pick settles to 5 points,
the goal total. -/
theorem team_pick_settlement_witness :
    (settleGame exC5Game [] none []).result = .ok ()
    ∧ ((settleGame exC5Game [] none []).picks[0]?
        = some { exC5Pick with pointsEarned :=
            if (redWingsWonOf exC5Game && decide (4 ≤ (5 : Int))) then
              ((4 : Int) + (5 - 4)).toNat
            else 0 }
      ∧ (redWingsWonOf exC5Game = true → (4 : Int) ≤ 5 →
          ((4 : Int) + (5 - 4)).toNat = (5 : Int).toNat)) :=
  ⟨rfl, team_pick_settlement exC5Game [] none [] rfl 0 exC5Pick rfl rfl 5 rfl⟩

/-! ## Additivity bookkeeping

League-restricted sums over the accumulator, the pick rows and the
membership ledger, used to state that settlement credits each pick's points
exactly once. -/

/-- Total accumulator value attributed to league `L`. -/
def ulpLeagueSum (ulp : List ((String × String) × Nat)) (L : String) : Nat :=
  ((ulp.filter (fun e => e.1.2 == L)).map (fun e => e.2)).sum

/-- Total `pointsEarned` on the picks of league `L`. -/
def picksLeagueSum (ps : List Pick) (L : String) : Nat :=
  ((ps.filter (fun p => p.leagueId == L)).map (fun p => p.pointsEarned)).sum

/-- Total `totalPoints` over the memberships of league `L`. -/
def msLeagueSum (ms : List Membership) (L : String) : Nat :=
  ((ms.filter (fun m => m.leagueId == L)).map (fun m => m.totalPoints)).sum

/-- Number of membership rows with the given (userId, leagueId) key. -/
def countMatch (ms : List Membership) (key : String × String) : Nat :=
  (ms.filter (fun m => m.userId == key.1 && m.leagueId == key.2)).length

/-- The picks the settlement loop skips: player picks missing the player
reference. -/
def isSkipPick (p : Pick) : Bool :=
  !(p.pickType == "team") && (p.playerId.isNone || p.player.isNone)

/-- `pointsEarned` of the skipped picks of league `L`. -/
def skippedLeagueSum (ps : List Pick) (L : String) : Nat :=
  ((ps.filter (fun p => p.leagueId == L && isSkipPick p)).map (fun p => p.pointsEarned)).sum

/-- The accumulator holds at most one entry per (user, league) key. -/
def NoDupKeys (ulp : List ((String × String) × Nat)) : Prop :=
  (ulp.map (fun e => e.1)).Nodup

theorem recompute_none_iff (rs : Option Int) (won : Bool) (sd : Option GameScoringData)
    (gid : String) (perfs : List PlayerPerformance) (p : Pick) :
    recompute rs won sd gid perfs p = none ↔ isSkipPick p = true := by
  unfold recompute isSkipPick
  by_cases ht : p.pickType == "team"
  · simp [ht]
  · cases hpid : p.playerId <;> cases hpl : p.player <;> simp [ht, hpid, hpl]

theorem ulpLeagueSum_cons (e : (String × String) × Nat)
    (u : List ((String × String) × Nat)) (L : String) :
    ulpLeagueSum (e :: u) L = (if e.1.2 == L then e.2 else 0) + ulpLeagueSum u L := by
  unfold ulpLeagueSum
  by_cases h : e.1.2 == L <;> simp [h, List.filter_cons]

theorem ulpLeagueSum_append (u v : List ((String × String) × Nat)) (L : String) :
    ulpLeagueSum (u ++ v) L = ulpLeagueSum u L + ulpLeagueSum v L := by
  unfold ulpLeagueSum
  simp [List.filter_append]

theorem picksLeagueSum_cons (p : Pick) (ps : List Pick) (L : String) :
    picksLeagueSum (p :: ps) L
      = (if p.leagueId == L then p.pointsEarned else 0) + picksLeagueSum ps L := by
  unfold picksLeagueSum
  by_cases h : p.leagueId == L <;> simp [h, List.filter_cons]

theorem msLeagueSum_cons (m : Membership) (ms : List Membership) (L : String) :
    msLeagueSum (m :: ms) L
      = (if m.leagueId == L then m.totalPoints else 0) + msLeagueSum ms L := by
  unfold msLeagueSum
  by_cases h : m.leagueId == L <;> simp [h, List.filter_cons]

theorem skippedLeagueSum_cons (p : Pick) (ps : List Pick) (L : String) :
    skippedLeagueSum (p :: ps) L
      = (if (p.leagueId == L && isSkipPick p) then p.pointsEarned else 0)
        + skippedLeagueSum ps L := by
  unfold skippedLeagueSum
  by_cases h : (p.leagueId == L && isSkipPick p) <;> simp [h, List.filter_cons]

theorem bumpULP_cons_ne (e : (String × String) × Nat)
    (u : List ((String × String) × Nat)) (key : String × String) (pts : Nat)
    (he : (e.1 == key) = false) :
    bumpULP (e :: u) key pts = e :: bumpULP u key pts := by
  unfold bumpULP
  rw [List.find?_cons_of_neg _ (by simp [he])]
  cases hfind : u.find? (fun x => x.1 == key) with
  | some e0 =>
    simp only [hfind, List.map_cons, he, Bool.false_eq_true, if_neg, if_false]
  | none => simp [hfind]

theorem bumpULP_cons_eq (e : (String × String) × Nat)
    (u : List ((String × String) × Nat)) (pts : Nat)
    (hu : ∀ x ∈ u, (x.1 == e.1) = false) :
    bumpULP (e :: u) e.1 pts = (e.1, e.2 + pts) :: u := by
  unfold bumpULP
  rw [List.find?_cons_of_pos _ (by simp)]
  simp only [List.map_cons, beq_self_eq_true, if_pos]
  congr 1
  calc u.map (fun x => if x.1 == e.1 then (x.1, x.2 + pts) else x)
      = u.map id := List.map_congr_left (fun x hx => by simp [hu x hx])
    _ = u := List.map_id u

theorem NoDupKeys_nil : NoDupKeys [] := List.nodup_nil

theorem NoDupKeys_bump (ulp : List ((String × String) × Nat)) (key : String × String)
    (pts : Nat) (hnd : NoDupKeys ulp) : NoDupKeys (bumpULP ulp key pts) := by
  unfold bumpULP
  cases hfind : ulp.find? (fun e => e.1 == key) with
  | some e0 =>
    unfold NoDupKeys at *
    have : (ulp.map (fun e => if e.1 == key then (e.1, e.2 + pts) else e)).map
        (fun e => e.1) = ulp.map (fun e => e.1) := by
      rw [List.map_map]
      refine List.map_congr_left (fun e _ => ?_)
      by_cases h : e.1 = key <;> simp [h]
    rwa [this]
  | none =>
    unfold NoDupKeys at *
    rw [List.map_append, List.nodup_append]
    refine ⟨hnd, List.nodup_singleton _, ?_⟩
    intro a ha hb
    simp only [List.map_cons, List.map_nil, List.mem_singleton] at hb
    subst hb
    obtain ⟨e, he, he1⟩ := List.mem_map.mp ha
    have := List.find?_eq_none.mp hfind e he
    simp [he1] at this

theorem bumpULP_keys_subset (ulp : List ((String × String) × Nat))
    (key : String × String) (pts : Nat) (e : (String × String) × Nat)
    (he : e ∈ bumpULP ulp key pts) :
    e.1 ∈ ulp.map (fun x => x.1) ∨ e.1 = key := by
  unfold bumpULP at he
  cases hfind : ulp.find? (fun x => x.1 == key) with
  | some e0 =>
    rw [hfind] at he
    obtain ⟨a, ha, rfl⟩ := List.mem_map.mp he
    left
    have h1 : (if a.1 == key then (a.1, a.2 + pts) else a).1 = a.1 := by
      by_cases h : a.1 = key <;> simp [h]
    rw [h1]
    exact List.mem_map.mpr ⟨a, ha, rfl⟩
  | none =>
    rw [hfind] at he
    rcases List.mem_append.mp he with h | h
    · exact Or.inl (List.mem_map.mpr ⟨e, h, rfl⟩)
    · simp at h
      subst h
      exact Or.inr rfl

theorem bump_league_sum (key : String × String) (pts : Nat) (L : String) :
    ∀ ulp : List ((String × String) × Nat), NoDupKeys ulp →
    ulpLeagueSum (bumpULP ulp key pts) L
      = ulpLeagueSum ulp L + (if key.2 == L then pts else 0) := by
  intro ulp
  induction ulp with
  | nil =>
    intro _
    rw [show bumpULP [] key pts = [(key, pts)] from rfl, ulpLeagueSum_cons]
    show (if key.2 == L then pts else 0) + ulpLeagueSum [] L
      = ulpLeagueSum [] L + (if key.2 == L then pts else 0)
    omega
  | cons e u ih =>
    intro hnd
    have hndu : NoDupKeys u := (List.nodup_cons.mp hnd).2
    by_cases he : (e.1 == key) = true
    · have hk : e.1 = key := beq_iff_eq.mp he
      subst hk
      have hu : ∀ x ∈ u, (x.1 == e.1) = false := by
        intro x hx
        have hne : e.1 ∉ u.map (fun y => y.1) := (List.nodup_cons.mp hnd).1
        by_contra hcon
        simp only [Bool.not_eq_false, beq_iff_eq] at hcon
        exact hne (List.mem_map.mpr ⟨x, hx, hcon⟩)
      rw [bumpULP_cons_eq e u pts hu, ulpLeagueSum_cons, ulpLeagueSum_cons]
      by_cases hL : (e.1.2 == L) = true <;> simp [hL] <;> omega
    · rw [bumpULP_cons_ne e u key pts (Bool.eq_false_iff.mpr he),
        ulpLeagueSum_cons, ulpLeagueSum_cons, ih hndu]
      omega

theorem bumpULP_keys_mem (ulp : List ((String × String) × Nat))
    (key : String × String) (pts : Nat) (a : String × String)
    (ha : a ∈ (bumpULP ulp key pts).map (fun x => x.1)) :
    a ∈ ulp.map (fun x => x.1) ∨ a = key := by
  obtain ⟨x, hx, rfl⟩ := List.mem_map.mp ha
  exact bumpULP_keys_subset ulp key pts x hx

theorem settleLoop_sums (ctx : SettleCtx) :
    ∀ (ps : List Pick) (perfs : List PlayerPerformance)
      (ulp : List ((String × String) × Nat)),
    NoDupKeys ulp →
    (settleLoop ctx ps perfs ulp).crashed = false →
    NoDupKeys (settleLoop ctx ps perfs ulp).ulp
    ∧ (∀ e ∈ (settleLoop ctx ps perfs ulp).ulp,
        e.1 ∈ ulp.map (fun x => x.1) ∨ ∃ p ∈ ps, e.1 = (p.userId, p.leagueId))
    ∧ ∀ L, ulpLeagueSum (settleLoop ctx ps perfs ulp).ulp L + skippedLeagueSum ps L
        = ulpLeagueSum ulp L + picksLeagueSum (settleLoop ctx ps perfs ulp).picks L := by
  intro ps
  induction ps with
  | nil =>
    intro perfs ulp hnd _
    refine ⟨hnd, ?_, ?_⟩
    · intro e he
      exact Or.inl (List.mem_map.mpr ⟨e, he, rfl⟩)
    · intro L
      simp [settleLoop, skippedLeagueSum, picksLeagueSum]
  | cons p rest ih =>
    intro perfs ulp hnd hnc
    rcases processPick_char ctx.redWingsScore ctx.redWingsWon ctx.sd ctx.gameId perfs p with
      ⟨hc, q, hproc⟩ | ⟨hc, hrec, hproc⟩ | ⟨hc, pts, q, hrec, hproc⟩
    · simp [settleLoop, hproc] at hnc
    · simp only [settleLoop, hproc] at hnc ⊢
      obtain ⟨ih1, ih2, ih3⟩ := ih perfs ulp hnd hnc
      have hskip : isSkipPick p = true :=
        (recompute_none_iff ctx.redWingsScore ctx.redWingsWon ctx.sd ctx.gameId perfs p).mp hrec
      refine ⟨ih1, ?_, ?_⟩
      · intro e he
        rcases ih2 e he with h | ⟨pk, hpk, hek⟩
        · exact Or.inl h
        · exact Or.inr ⟨pk, List.mem_cons_of_mem p hpk, hek⟩
      · intro L
        rw [skippedLeagueSum_cons, picksLeagueSum_cons]
        have h3 := ih3 L
        simp only [hskip, Bool.and_true]
        omega
    · simp only [settleLoop, hproc] at hnc ⊢
      have hns : isSkipPick p = false := by
        cases hcase : isSkipPick p with
        | false => rfl
        | true =>
          rw [(recompute_none_iff ctx.redWingsScore ctx.redWingsWon ctx.sd
            ctx.gameId perfs p).mpr hcase] at hrec
          cases hrec
      obtain ⟨ih1, ih2, ih3⟩ := ih q (bumpULP ulp (p.userId, p.leagueId) pts)
        (NoDupKeys_bump ulp (p.userId, p.leagueId) pts hnd) hnc
      refine ⟨ih1, ?_, ?_⟩
      · intro e he
        rcases ih2 e he with h | ⟨pk, hpk, hek⟩
        · rcases bumpULP_keys_mem ulp (p.userId, p.leagueId) pts e.1 h with h' | h'
          · exact Or.inl h'
          · exact Or.inr ⟨p, List.mem_cons_self p rest, h'⟩
        · exact Or.inr ⟨pk, List.mem_cons_of_mem p hpk, hek⟩
      · intro L
        rw [skippedLeagueSum_cons, picksLeagueSum_cons]
        have h3 := ih3 L
        have hb := bump_league_sum (p.userId, p.leagueId) pts L ulp hnd
        simp only [hns, Bool.and_false, if_neg, Bool.false_eq_true, if_false] at *
        omega

theorem countMatch_map_incr (ms : List Membership) (entry : (String × String) × Nat)
    (key : String × String) :
    countMatch (ms.map (fun m =>
      if m.userId == entry.1.1 && m.leagueId == entry.1.2 then
        { m with totalPoints := m.totalPoints + entry.2 }
      else m)) key = countMatch ms key := by
  unfold countMatch
  induction ms with
  | nil => rfl
  | cons m ms ih =>
    simp only [List.map_cons, List.filter_cons]
    have hfields : (((if m.userId == entry.1.1 && m.leagueId == entry.1.2 then
          { m with totalPoints := m.totalPoints + entry.2 } else m).userId == key.1)
        && ((if m.userId == entry.1.1 && m.leagueId == entry.1.2 then
          { m with totalPoints := m.totalPoints + entry.2 } else m).leagueId == key.2))
        = (m.userId == key.1 && m.leagueId == key.2) := by
      by_cases hm : (m.userId == entry.1.1 && m.leagueId == entry.1.2) = true <;> simp [hm]
    rw [hfields]
    by_cases hk : (m.userId == key.1 && m.leagueId == key.2) = true
    · rw [if_pos hk, if_pos hk]
      simp only [List.length_cons]
      rw [ih]
    · rw [if_neg hk, if_neg hk]
      exact ih

theorem msLeagueSum_map_incr (entry : (String × String) × Nat) (L : String) :
    ∀ ms : List Membership,
    msLeagueSum (ms.map (fun m =>
      if m.userId == entry.1.1 && m.leagueId == entry.1.2 then
        { m with totalPoints := m.totalPoints + entry.2 }
      else m)) L
    = msLeagueSum ms L
      + (if entry.1.2 == L then entry.2 * countMatch ms entry.1 else 0) := by
  intro ms
  induction ms with
  | nil =>
    simp [msLeagueSum, countMatch]
  | cons m ms ih =>
    simp only [List.map_cons]
    rw [msLeagueSum_cons, msLeagueSum_cons, ih]
    have hcnt : countMatch (m :: ms) entry.1
        = (if (m.userId == entry.1.1 && m.leagueId == entry.1.2) then 1 else 0)
          + countMatch ms entry.1 := by
      unfold countMatch
      by_cases hm : (m.userId == entry.1.1 && m.leagueId == entry.1.2) = true <;>
        simp [hm, List.filter_cons] <;> omega
    rw [hcnt]
    by_cases hm : (m.userId == entry.1.1 && m.leagueId == entry.1.2) = true
    · have hlg : m.leagueId = entry.1.2 := by
        have := (Bool.and_eq_true _ _).mp hm
        exact beq_iff_eq.mp this.2
      simp only [hm, if_pos]
      by_cases hL : (entry.1.2 == L) = true
      · have hmL : (m.leagueId == L) = true := by rw [hlg]; exact hL
        simp only [hL, hmL, if_pos, Nat.mul_add, Nat.mul_one]
        omega
      · have hmL : (m.leagueId == L) = false := by
          rw [hlg]; exact Bool.eq_false_iff.mpr hL
        simp only [hL, hmL, Bool.false_eq_true, if_neg, if_false]
        omega
    · simp only [hm, Bool.false_eq_true, if_neg, if_false]
      by_cases hL : (entry.1.2 == L) = true <;>
        by_cases hmL : (m.leagueId == L) = true <;>
          simp [hL, hmL] <;> omega

theorem applyIncrements_league_sum :
    ∀ (ulp : List ((String × String) × Nat)) (ms : List Membership),
    (∀ e ∈ ulp, countMatch ms e.1 = 1) → ∀ L,
    msLeagueSum (applyIncrements ms ulp) L = msLeagueSum ms L + ulpLeagueSum ulp L := by
  intro ulp
  induction ulp with
  | nil =>
    intro ms _ L
    simp [applyIncrements, ulpLeagueSum]
  | cons e u ih =>
    intro ms hcnt L
    have hstep : applyIncrements ms (e :: u)
        = applyIncrements (ms.map (fun m =>
            if m.userId == e.1.1 && m.leagueId == e.1.2 then
              { m with totalPoints := m.totalPoints + e.2 }
            else m)) u := by
      unfold applyIncrements
      rw [List.foldl_cons]
    rw [hstep]
    have hcnt' : ∀ x ∈ u, countMatch (ms.map (fun m =>
        if m.userId == e.1.1 && m.leagueId == e.1.2 then
          { m with totalPoints := m.totalPoints + e.2 }
        else m)) x.1 = 1 := by
      intro x hx
      rw [countMatch_map_incr]
      exact hcnt x (List.mem_cons_of_mem e hx)
    rw [ih _ hcnt' L, msLeagueSum_map_incr, ulpLeagueSum_cons,
      hcnt e (List.mem_cons_self e u), Nat.mul_one]
    omega

/-- Claim C2: when a settlement run succeeds and every pick's (user, league)
key matches exactly one membership row, the league's `totalPoints` gain over
the run equals the sum of the `pointsEarned` written on that league's picks —
each pick credited exactly once through per-key increments. -/
theorem settlement_additivity (game : Game) (perfs : List PlayerPerformance)
    (sd : Option GameScoringData) (ms : List Membership)
    (hok : (settleGame game perfs sd ms).result = .ok ())
    (hcnt : ∀ p ∈ game.picks, countMatch ms (p.userId, p.leagueId) = 1) (L : String) :
    msLeagueSum (settleGame game perfs sd ms).memberships L
      = msLeagueSum ms L + picksLeagueSum (settleGame game perfs sd ms).picks L := by
  obtain ⟨hfin, hguard, hcr, hpicks, hperfs, hmem⟩ := settleGame_ok_spec game perfs sd ms hok
  obtain ⟨hnd, hkeys, hsums⟩ := settleLoop_sums (settleCtxOf game sd) game.picks perfs []
    NoDupKeys_nil hcr
  have hz : ∀ p ∈ game.picks, p.pointsEarned = 0 := by
    intro p hp
    have := List.any_eq_false.mp hguard p hp
    simpa using this
  have hskip0 : skippedLeagueSum game.picks L = 0 := by
    unfold skippedLeagueSum
    refine List.sum_eq_zero ?_
    intro x hx
    obtain ⟨p, hp, rfl⟩ := List.mem_map.mp hx
    exact hz p (List.mem_of_mem_filter hp)
  have hulpcnt : ∀ e ∈ (settleLoop (settleCtxOf game sd) game.picks perfs []).ulp,
      countMatch ms e.1 = 1 := by
    intro e he
    rcases hkeys e he with h | ⟨p, hp, hek⟩
    · simp at h
    · rw [hek]
      exact hcnt p hp
  have happy := applyIncrements_league_sum
    (settleLoop (settleCtxOf game sd) game.picks perfs []).ulp ms hulpcnt L
  have hsum := hsums L
  rw [hmem, hpicks, happy]
  have h0 : ulpLeagueSum [] L = 0 := rfl
  omega

/-- Team pick of user u1 in league l1. -/
def exC2Pick1 : Pick :=
  { id := "q1", userId := "u1", leagueId := "l1", pickType := "team"
    playerId := none, player := none, playerName := "Red Wings", pointsEarned := 0 }

/-- Player pick of user u2 in league l1 on a forward with no stats. -/
def exC2Pick2 : Pick :=
  { id := "q2", userId := "u2", leagueId := "l1", pickType := "player"
    playerId := some "pl2", player := some { position := "Forward", nhlPlayerId := none }
    playerName := "Some Forward", pointsEarned := 0 }

/-- A final 4–1 home win with the two picks above. -/
def exC2Game : Game :=
  { id := "g2", status := "final", isHome := true, homeScore := some 4
    awayScore := some 1, nhlGamePk := none, picks := [exC2Pick1, exC2Pick2] }

/-- One membership row per picking user. -/
def exC2Ms : List Membership :=
  [ { leagueId := "l1", userId := "u1", role := "member"
      draftPosition := none, totalPoints := 10 }
  , { leagueId := "l1", userId := "u2", role := "member"
      draftPosition := none, totalPoints := 0 } ]

/-- Witness for claim C2 on the 4–1 game: league l1's ledger moves by
exactly the sum of the points written to its picks. -/
theorem settlement_additivity_witness :
    (settleGame exC2Game [] none exC2Ms).result = .ok ()
    ∧ (∀ p ∈ exC2Game.picks, countMatch exC2Ms (p.userId, p.leagueId) = 1)
    ∧ msLeagueSum (settleGame exC2Game [] none exC2Ms).memberships "l1"
        = msLeagueSum exC2Ms "l1"
          + picksLeagueSum (settleGame exC2Game [] none exC2Ms).picks "l1" :=
  ⟨rfl, by decide, settlement_additivity exC2Game [] none exC2Ms rfl (by decide) "l1"⟩

/-- A forward pick with no performance data anywhere. -/
def exC8Skater : Pick :=
  { id := "r1", userId := "u1", leagueId := "l1", pickType := "player"
    playerId := some "pl1", player := some { position := "Forward", nhlPlayerId := none }
    playerName := "Some Forward", pointsEarned := 0 }

/-- A corrupt player pick missing its player relation. -/
def exC8Bad : Pick :=
  { id := "r2", userId := "u2", leagueId := "l1", pickType := "player"
    playerId := some "plX", player := none
    playerName := "Ghost", pointsEarned := 0 }

/-- A goalie pick. -/
def exC8Goalie : Pick :=
  { id := "r3", userId := "u3", leagueId := "l1", pickType := "player"
    playerId := some "pl3", player := some { position := "Goalie", nhlPlayerId := some 30 }
    playerName := "Some Goalie", pointsEarned := 0 }

/-- A final game holding the corrupt pick before the forward pick. -/
def exC8GameA : Game :=
  { id := "g8", status := "final", isHome := true, homeScore := some 2
    awayScore := some 1, nhlGamePk := none, picks := [exC8Bad, exC8Skater] }

/-- A final game holding the forward pick before the goalie pick, settled
while the NHL scoring data is unavailable. -/
def exC8GameB : Game :=
  { id := "g9", status := "final", isHome := true, homeScore := some 2
    awayScore := some 1, nhlGamePk := none, picks := [exC8Skater, exC8Goalie] }

/-- Claim C8, evaluated on the embedded route. The first run shows the
benign half of the claim: the pick missing its player reference is skipped
while the rest of the batch continues, and the forward with no upstream
record gets a synthesized zero-stat record and settles to 0 points without
error. The second run shows the divergence: a goalie pick settled while the
scoring data is unavailable takes the route's unguarded
`scoringData.goalieStats` access, and the entire settlement aborts with the
internal error instead of skipping that one pick. -/
theorem zero_synthesis_and_goalie_abort :
    ((settleGame exC8GameA [] none []).result = .ok ()
     ∧ (settleGame exC8GameA [] none []).picks
         = [exC8Bad, { exC8Skater with pointsEarned := 0 }]
     ∧ (settleGame exC8GameA [] none []).perfs = [zeroRecord "pl1" "g8"])
    ∧ (settleGame exC8GameB [] none []).result = .error .internalError
    ∧ (settleGame exC8GameB [] none []).memberships = [] := by
  exact ⟨⟨rfl, rfl, rfl⟩, rfl, rfl⟩

/-- A team-pick submission request for league l1, game g1. -/
def exC7Req : SubmitReq :=
  { leagueId := "l1", gameId := "g1", playerId := none
    playerName := "Red Wings", pickType := "team", targetUserId := none }

/-- The non-admin membership behind the request. -/
def exC7Member : Membership :=
  { leagueId := "l1", userId := "u1", role := "member"
    draftPosition := none, totalPoints := 0 }

/-- A game whose scheduled start (100) has been reached but whose status is
still `scheduled`. -/
def exC7Game : GameRow := { id := "g1", gameDate := 100, status := "scheduled" }

/-- The row the submission creates. -/
def exC7NewPick : PickRow :=
  { id := "pk1", userId := "u1", leagueId := "l1", gameId := "g1"
    playerId := none, playerName := "Red Wings", pickType := "team"
    pointsEarned := 0, lockedAt := none }

/-- Counterexample to claim C7 as stated: a non-admin league member submits
at wall-clock time equal to the game's start time, yet because the game's
status is still `scheduled` the route accepts the pick and creates a row
instead of rejecting with a lock error. -/
theorem pick_lock_counterexample :
    exC7Game.gameDate ≤ 100
    ∧ findMembership [exC7Member] "l1" "u1" = some exC7Member
    ∧ (exC7Member.role == "admin") = false
    ∧ (submitPick "u1" exC7Req "pk1" 100 [exC7Member] [exC7Game] [] []).result
        = .ok exC7NewPick
    ∧ (submitPick "u1" exC7Req "pk1" 100 [exC7Member] [exC7Game] [] []).picks
        = [{ exC7NewPick with lockedAt := some 100 }] := by
  exact ⟨by decide, rfl, rfl, rfl, rfl⟩

/-- Claim C7 as amended: a non-admin submission is rejected with the lock
error — leaving the pick store untouched — when the game is `final`, or when
the wall clock has reached the start time and the game's status is no longer
`scheduled`; a submission at or past start time with status still
`scheduled` is not rejected by the lock check. The identical team-pick call
from a league admin always passes the lock check and succeeds. -/
theorem pick_lock_amended (userId : String) (req : SubmitReq) (freshId : String)
    (now : Int) (ms : List Membership) (games : List GameRow)
    (players : List PlayerRow) (picks : List PickRow)
    (membership : Membership) (game : GameRow)
    (h1 : (req.leagueId == "" || req.gameId == "" || req.playerName == "") = false)
    (h2 : (!(req.pickType == "team") && ((req.playerId.getD "") == "")) = false)
    (hm : findMembership ms req.leagueId userId = some membership)
    (ht : req.targetUserId = none)
    (hg : games.find? (fun g => g.id == req.gameId) = some game) :
    ((membership.role == "admin") = false →
      (game.status = "final" ∨ (game.gameDate ≤ now ∧ game.status ≠ "scheduled")) →
      submitPick userId req freshId now ms games players picks = ⟨.error .locked, picks⟩)
    ∧ ((membership.role == "admin") = true → req.pickType = "team" →
        ∃ pr, (submitPick userId req freshId now ms games players picks).result = .ok pr) := by
  constructor
  · intro hrole hlock
    unfold submitPick
    rw [h1]
    simp only [Bool.false_eq_true, if_neg, if_false, h2, hm, ht, hg]
    rcases hlock with hfin | ⟨hstart, hsched⟩
    · have : (!(membership.role == "admin") && game.status == "final") = true := by
        simp [hrole, hfin]
      simp [this]
    · by_cases hfin : (game.status == "final") = true
      · have : (!(membership.role == "admin") && game.status == "final") = true := by
          simp [hrole, hfin]
        simp [this]
      · have hc1 : (!(membership.role == "admin") && game.status == "final") = false := by
          simp [hrole, hfin]
        have hc2 : (!(membership.role == "admin")
            && (decide (game.gameDate ≤ now) && !(game.status == "scheduled"))) = true := by
          simp [hrole, hstart, hsched]
        simp [hc1, hc2]
  · intro hrole hteam
    unfold submitPick
    rw [h1]
    simp only [Bool.false_eq_true, if_neg, if_false, h2, hm, ht, hg]
    have hc1 : (!(membership.role == "admin") && game.status == "final") = false := by
      simp [hrole]
    have hc2 : (!(membership.role == "admin")
        && (decide (game.gameDate ≤ now) && !(game.status == "scheduled"))) = false := by
      simp [hrole]
    simp only [hc1, hc2, Bool.false_eq_true, if_neg, if_false]
    cases hfound : findPick picks userId req.leagueId req.gameId with
    | some existing => exact ⟨_, rfl⟩
    | none =>
      have hpok : (if (!(req.pickType == "team")
          && ((req.playerId.getD "") != "")) = true then
            (players.find? (fun p => some p.id == req.playerId)).isSome
          else true) = true := by
        simp [hteam]
      simp only [ht, hfound, hpok]
      simp

/-- An admin membership in league l1. -/
def exC7AdminMember : Membership :=
  { leagueId := "l1", userId := "ua", role := "admin"
    draftPosition := none, totalPoints := 0 }

/-- Game g1 once it is final. -/
def exC7FinalGame : GameRow := { id := "g1", gameDate := 100, status := "final" }

/-- Witness for the amended claim C7: past start time on the final game, the
member's call is rejected with the lock error and creates nothing, while the
admin's identical call succeeds. -/
theorem pick_lock_amended_witness :
    (submitPick "u1" exC7Req "pk2" 150 [exC7Member] [exC7FinalGame] [] []
      = ⟨.error .locked, []⟩)
    ∧ (∃ pr, (submitPick "ua" exC7Req "pk3" 150 [exC7AdminMember]
        [exC7FinalGame] [] []).result = .ok pr) :=
  ⟨(pick_lock_amended "u1" exC7Req "pk2" 150 [exC7Member] [exC7FinalGame] [] []
      exC7Member exC7FinalGame rfl rfl rfl rfl rfl).1 rfl (Or.inl rfl),
   (pick_lock_amended "ua" exC7Req "pk3" 150 [exC7AdminMember] [exC7FinalGame] [] []
      exC7AdminMember exC7FinalGame rfl rfl rfl rfl rfl).2 rfl rfl⟩

/-! ## Upsert analysis of the submission route -/

/-- The key predicate behind the Pick unique index (user, league, game). -/
def pickKeyMatch (uid lg gm : String) (r : PickRow) : Bool :=
  r.userId == uid && r.leagueId == lg && r.gameId == gm

/-- Number of pick rows holding the (user, league, game) key. -/
def keyCount (picks : List PickRow) (uid lg gm : String) : Nat :=
  (picks.filter (pickKeyMatch uid lg gm)).length

theorem findPick_eq (picks : List PickRow) (uid lg gm : String) :
    findPick picks uid lg gm = picks.find? (pickKeyMatch uid lg gm) := rfl

/-- The in-place update the route writes over an existing pick row. -/
def updatedRowOf (req : SubmitReq) (e : PickRow) : PickRow :=
  { e with
    playerId := if req.pickType == "team" then none else req.playerId
    playerName := req.playerName
    pickType := if req.pickType == "team" then "team" else "player" }

/-- The fresh row the route creates when no pick exists for the key. -/
def newRowOf (user : String) (req : SubmitReq) (freshId : String) : PickRow :=
  { id := freshId
    userId := user
    leagueId := req.leagueId
    gameId := req.gameId
    playerId := if req.pickType == "team" then none else req.playerId
    playerName := req.playerName
    pickType := if req.pickType == "team" then "team" else "player"
    pointsEarned := 0
    lockedAt := none }

theorem submit_ok_cases (user : String) (req : SubmitReq) (freshId : String)
    (now : Int) (ms : List Membership) (games : List GameRow)
    (players : List PlayerRow) (picks : List PickRow) (pr : PickRow)
    (ht : req.targetUserId = none)
    (hok : (submitPick user req freshId now ms games players picks).result = .ok pr) :
    (∃ e, findPick picks user req.leagueId req.gameId = some e
      ∧ pr = updatedRowOf req e
      ∧ submitPick user req freshId now ms games players picks
          = ⟨.ok pr, lockIfComplete ms req.leagueId req.gameId now
              (picks.map (fun r => if r.id == e.id then pr else r))⟩)
    ∨ (findPick picks user req.leagueId req.gameId = none
      ∧ pr = newRowOf user req freshId
      ∧ submitPick user req freshId now ms games players picks
          = ⟨.ok pr, lockIfComplete ms req.leagueId req.gameId now (picks ++ [pr])⟩) := by
  unfold submitPick at hok ⊢
  simp only [ht] at hok ⊢
  by_cases hval : (req.leagueId == "" || req.gameId == "" || req.playerName == "") = true
  · rw [if_pos hval] at hok
    simp at hok
  · rw [if_neg hval] at hok
    rw [if_neg hval]
    by_cases hval2 : (!(req.pickType == "team") && ((req.playerId.getD "") == "")) = true
    · rw [if_pos hval2] at hok
      simp at hok
    · rw [if_neg hval2] at hok
      rw [if_neg hval2]
      cases hm : findMembership ms req.leagueId user with
      | none => rw [hm] at hok; simp at hok
      | some membership =>
        rw [hm] at hok
        simp only at hok
        simp only [hm]
        cases hgame : games.find? (fun g => g.id == req.gameId) with
        | none => rw [hgame] at hok; simp at hok
        | some game =>
          rw [hgame] at hok
          simp only at hok
          simp only [hgame]
          by_cases hlock1 : (!(membership.role == "admin") && game.status == "final") = true
          · rw [if_pos hlock1] at hok
            simp at hok
          · rw [if_neg hlock1] at hok
            rw [if_neg hlock1]
            by_cases hlock2 : (!(membership.role == "admin")
                && (decide (game.gameDate ≤ now) && !(game.status == "scheduled"))) = true
            · rw [if_pos hlock2] at hok
              simp at hok
            · rw [if_neg hlock2] at hok
              rw [if_neg hlock2]
              cases hfound : findPick picks user req.leagueId req.gameId with
              | some existingPick =>
                rw [hfound] at hok
                simp only [hfound]
                simp only [Except.ok.injEq] at hok
                subst hok
                exact Or.inl ⟨existingPick, rfl, rfl, rfl⟩
              | none =>
                rw [hfound] at hok
                simp only at hok
                simp only [hfound]
                by_cases hpok : (if (!(req.pickType == "team")
                    && ((req.playerId.getD "") != "")) = true then
                      (players.find? (fun p => some p.id == req.playerId)).isSome
                    else true) = true
                · have hng : ¬((!(if (!(req.pickType == "team")
                      && ((req.playerId.getD "") != "")) = true then
                        (players.find? (fun p => some p.id == req.playerId)).isSome
                      else true)) = true) := by rw [hpok]; decide
                  rw [if_neg hng] at hok
                  simp only [Except.ok.injEq] at hok
                  subst hok
                  exact Or.inr ⟨by trivial, rfl, by rw [if_neg hng]⟩
                · have hps : ((!(if (!(req.pickType == "team")
                      && ((req.playerId.getD "") != "")) = true then
                        (players.find? (fun p => some p.id == req.playerId)).isSome
                      else true)) = true) := by
                    rw [Bool.not_eq_true']
                    exact Bool.eq_false_iff.mpr hpok
                  rw [if_pos hps] at hok
                  simp at hok

/-- The selection-relevant fields of a pick row (everything but the lock
stamp and the points). -/
def sameSel (a b : PickRow) : Prop :=
  a.id = b.id ∧ a.userId = b.userId ∧ a.leagueId = b.leagueId ∧ a.gameId = b.gameId
  ∧ a.playerId = b.playerId ∧ a.playerName = b.playerName ∧ a.pickType = b.pickType

theorem sameSel_keyMatch (uid lg gm : String) {a b : PickRow} (h : sameSel a b) :
    pickKeyMatch uid lg gm a = pickKeyMatch uid lg gm b := by
  obtain ⟨-, h2, h3, h4, -, -, -⟩ := h
  unfold pickKeyMatch
  rw [h2, h3, h4]

theorem lockIfComplete_mem (ms : List Membership) (lg gm : String) (now : Int)
    (l : List PickRow) (r' : PickRow) (h : r' ∈ lockIfComplete ms lg gm now l) :
    ∃ r ∈ l, sameSel r' r := by
  unfold lockIfComplete at h
  by_cases hc : ((l.filter (fun r => r.leagueId == lg && r.gameId == gm)).length
      = (ms.filter (fun m => m.leagueId == lg)).length)
  · rw [if_pos hc] at h
    obtain ⟨r, hr, rfl⟩ := List.mem_map.mp h
    refine ⟨r, hr, ?_⟩
    by_cases hm : (r.leagueId == lg && r.gameId == gm) = true <;>
      simp [hm, sameSel]
  · rw [if_neg hc] at h
    exact ⟨r', h, rfl, rfl, rfl, rfl, rfl, rfl, rfl⟩

theorem lockIfComplete_keyCount (ms : List Membership) (lg gm : String) (now : Int)
    (l : List PickRow) (uid lg' gm' : String) :
    keyCount (lockIfComplete ms lg gm now l) uid lg' gm' = keyCount l uid lg' gm' := by
  unfold lockIfComplete
  by_cases hc : ((l.filter (fun r => r.leagueId == lg && r.gameId == gm)).length
      = (ms.filter (fun m => m.leagueId == lg)).length)
  · rw [if_pos hc]
    clear hc
    unfold keyCount
    induction l with
    | nil => rfl
    | cons r l ih =>
      simp only [List.map_cons, List.filter_cons]
      have hpm : pickKeyMatch uid lg' gm' (if (r.leagueId == lg && r.gameId == gm) = true
          then { r with lockedAt := some now } else r) = pickKeyMatch uid lg' gm' r := by
        by_cases hm : (r.leagueId == lg && r.gameId == gm) = true <;>
          simp [hm, pickKeyMatch]
      rw [hpm]
      by_cases hk : pickKeyMatch uid lg' gm' r = true
      · rw [if_pos hk, if_pos hk]
        simp only [List.length_cons]
        rw [ih]
      · rw [if_neg hk, if_neg hk]
        exact ih
  · rw [if_neg hc]

theorem lockIfComplete_ids (ms : List Membership) (lg gm : String) (now : Int)
    (l : List PickRow) :
    (lockIfComplete ms lg gm now l).map (fun r => r.id) = l.map (fun r => r.id) := by
  unfold lockIfComplete
  by_cases hc : ((l.filter (fun r => r.leagueId == lg && r.gameId == gm)).length
      = (ms.filter (fun m => m.leagueId == lg)).length)
  · rw [if_pos hc, List.map_map]
    refine List.map_congr_left (fun r _ => ?_)
    simp only [Function.comp_apply]
    by_cases hm : (r.leagueId == lg && r.gameId == gm) = true
    · rw [if_pos hm]
    · rw [if_neg hm]
  · rw [if_neg hc]

theorem findPick_none_count (l : List PickRow) (uid lg gm : String)
    (h : findPick l uid lg gm = none) : keyCount l uid lg gm = 0 := by
  unfold keyCount
  rw [List.length_eq_zero]
  rw [List.filter_eq_nil]
  intro a ha
  have h2 := List.find?_eq_none.mp h a ha
  exact h2

theorem keyCount_pos_find (l : List PickRow) (uid lg gm : String)
    (h : 1 ≤ keyCount l uid lg gm) :
    ∃ e, findPick l uid lg gm = some e ∧ pickKeyMatch uid lg gm e = true ∧ e ∈ l := by
  cases hf : findPick l uid lg gm with
  | some e =>
    exact ⟨e, rfl, List.find?_some hf, List.mem_of_find?_eq_some hf⟩
  | none =>
    rw [findPick_none_count l uid lg gm hf] at h
    omega

theorem keyCount_le_one_unique (l : List PickRow) (uid lg gm : String)
    (h : keyCount l uid lg gm ≤ 1) (r : PickRow) (hr : r ∈ l)
    (hrm : pickKeyMatch uid lg gm r = true) (s : PickRow) (hs : s ∈ l)
    (hsm : pickKeyMatch uid lg gm s = true) : r = s := by
  have hrf : r ∈ l.filter (pickKeyMatch uid lg gm) := List.mem_filter.mpr ⟨hr, hrm⟩
  have hsf : s ∈ l.filter (pickKeyMatch uid lg gm) := List.mem_filter.mpr ⟨hs, hsm⟩
  unfold keyCount at h
  cases hfl : l.filter (pickKeyMatch uid lg gm) with
  | nil => rw [hfl] at hrf; simp at hrf
  | cons a t =>
    rw [hfl] at h hrf hsf
    cases t with
    | nil =>
      simp only [List.mem_singleton] at hrf hsf
      rw [hrf, hsf]
    | cons b t' => simp at h

theorem eq_of_id_eq (l : List PickRow) (hid : (l.map (fun r => r.id)).Nodup)
    {r e : PickRow} (hr : r ∈ l) (he : e ∈ l) (h : r.id = e.id) : r = e := by
  exact List.inj_on_of_nodup_map hid hr he h

theorem map_upd_ids (l : List PickRow) (e pr : PickRow) (hpr : pr.id = e.id) :
    (l.map (fun r => if r.id == e.id then pr else r)).map (fun r => r.id)
      = l.map (fun r => r.id) := by
  rw [List.map_map]
  refine List.map_congr_left (fun r _ => ?_)
  simp only [Function.comp_apply]
  by_cases h : (r.id == e.id) = true
  · rw [if_pos h, hpr]
    exact (beq_iff_eq.mp h).symm
  · rw [if_neg h]

theorem keyCount_map_of (uid lg gm : String) (f : PickRow → PickRow) :
    ∀ l : List PickRow,
    (∀ r ∈ l, pickKeyMatch uid lg gm (f r) = pickKeyMatch uid lg gm r) →
    keyCount (l.map f) uid lg gm = keyCount l uid lg gm := by
  intro l
  induction l with
  | nil => intro _; rfl
  | cons r l ih =>
    intro hf
    unfold keyCount at *
    simp only [List.map_cons, List.filter_cons]
    rw [hf r (List.mem_cons_self r l)]
    by_cases hk : pickKeyMatch uid lg gm r = true
    · rw [if_pos hk, if_pos hk]
      simp only [List.length_cons]
      rw [ih (fun x hx => hf x (List.mem_cons_of_mem r hx))]
    · rw [if_neg hk, if_neg hk]
      exact ih (fun x hx => hf x (List.mem_cons_of_mem r hx))

theorem keyCount_append (l₁ l₂ : List PickRow) (uid lg gm : String) :
    keyCount (l₁ ++ l₂) uid lg gm = keyCount l₁ uid lg gm + keyCount l₂ uid lg gm := by
  unfold keyCount
  rw [List.filter_append, List.length_append]

theorem submit_post (user : String) (req : SubmitReq) (freshId : String) (now : Int)
    (ms : List Membership) (games : List GameRow) (players : List PlayerRow)
    (picks : List PickRow) (pr : PickRow)
    (ht : req.targetUserId = none)
    (hkc : keyCount picks user req.leagueId req.gameId ≤ 1)
    (hid : (picks.map (fun r => r.id)).Nodup)
    (hfresh : findPick picks user req.leagueId req.gameId = none →
      freshId ∉ picks.map (fun r => r.id))
    (hok : (submitPick user req freshId now ms games players picks).result = .ok pr) :
    keyCount (submitPick user req freshId now ms games players picks).picks
        user req.leagueId req.gameId = 1
    ∧ (∀ r ∈ (submitPick user req freshId now ms games players picks).picks,
        pickKeyMatch user req.leagueId req.gameId r = true →
        r.id = pr.id
        ∧ r.playerId = (if req.pickType == "team" then none else req.playerId)
        ∧ r.playerName = req.playerName
        ∧ r.pickType = (if req.pickType == "team" then "team" else "player"))
    ∧ ((submitPick user req freshId now ms games players picks).picks.map
        (fun r => r.id)).Nodup
    ∧ (∀ e, findPick picks user req.leagueId req.gameId = some e → pr.id = e.id) := by
  rcases submit_ok_cases user req freshId now ms games players picks pr ht hok with
    ⟨e, hfound, hpr, heq⟩ | ⟨hfound, hpr, heq⟩
  · have hpicks' : (submitPick user req freshId now ms games players picks).picks
        = lockIfComplete ms req.leagueId req.gameId now
            (picks.map (fun r => if r.id == e.id then pr else r)) := by rw [heq]
    have heMem : e ∈ picks := List.mem_of_find?_eq_some hfound
    have heKey : pickKeyMatch user req.leagueId req.gameId e = true :=
      List.find?_some hfound
    have hprKey : pickKeyMatch user req.leagueId req.gameId pr = true := by
      rw [hpr]
      exact heKey
    have hprId : pr.id = e.id := by rw [hpr]; rfl
    have hupdKey : ∀ r ∈ picks,
        pickKeyMatch user req.leagueId req.gameId (if r.id == e.id then pr else r)
          = pickKeyMatch user req.leagueId req.gameId r := by
      intro r hr
      by_cases hc : (r.id == e.id) = true
      · rw [if_pos hc]
        have hre : r = e := eq_of_id_eq picks hid hr heMem (beq_iff_eq.mp hc)
        rw [hprKey, hre, heKey]
      · rw [if_neg hc]
    have h1le : 1 ≤ keyCount picks user req.leagueId req.gameId := by
      unfold keyCount
      have : e ∈ picks.filter (pickKeyMatch user req.leagueId req.gameId) :=
        List.mem_filter.mpr ⟨heMem, heKey⟩
      exact List.length_pos.mpr (List.ne_nil_of_mem this)
    refine ⟨?_, ?_, ?_, ?_⟩
    · rw [hpicks', lockIfComplete_keyCount,
        keyCount_map_of user req.leagueId req.gameId _ picks hupdKey]
      omega
    · intro r' hr' hkey'
      rw [hpicks'] at hr'
      obtain ⟨r₀, hr₀, hsel⟩ := lockIfComplete_mem ms req.leagueId req.gameId now _ r' hr'
      obtain ⟨r, hrp, rfl⟩ := List.mem_map.mp hr₀
      by_cases hc : (r.id == e.id) = true
      · rw [if_pos hc] at hsel
        obtain ⟨hs1, -, -, -, hs5, hs6, hs7⟩ := hsel
        refine ⟨hs1, ?_, ?_, ?_⟩
        · rw [hs5, hpr]; rfl
        · rw [hs6, hpr]; rfl
        · rw [hs7, hpr]; rfl
      · rw [if_neg hc] at hsel
        exfalso
        have hkr : pickKeyMatch user req.leagueId req.gameId r = true := by
          rw [← sameSel_keyMatch user req.leagueId req.gameId hsel]
          exact hkey'
        have hre : r = e := keyCount_le_one_unique picks user req.leagueId req.gameId
          hkc r hrp hkr e heMem heKey
        rw [hre] at hc
        simp at hc
    · rw [hpicks', lockIfComplete_ids, map_upd_ids picks e pr hprId]
      exact hid
    · intro e' he'
      rw [hfound] at he'
      injection he' with h3
      rw [← h3]
      exact hprId
  · have hpicks' : (submitPick user req freshId now ms games players picks).picks
        = lockIfComplete ms req.leagueId req.gameId now (picks ++ [pr]) := by rw [heq]
    have hc0 : keyCount picks user req.leagueId req.gameId = 0 :=
      findPick_none_count picks user req.leagueId req.gameId hfound
    have hprKey : pickKeyMatch user req.leagueId req.gameId pr = true := by
      rw [hpr]
      simp [pickKeyMatch, newRowOf]
    refine ⟨?_, ?_, ?_, ?_⟩
    · rw [hpicks', lockIfComplete_keyCount, keyCount_append, hc0]
      unfold keyCount
      simp [List.filter_cons, hprKey]
    · intro r' hr' hkey'
      rw [hpicks'] at hr'
      obtain ⟨r₀, hr₀, hsel⟩ := lockIfComplete_mem ms req.leagueId req.gameId now _ r' hr'
      rcases List.mem_append.mp hr₀ with hp | hp
      · exfalso
        have hkr : pickKeyMatch user req.leagueId req.gameId r₀ = true := by
          rw [← sameSel_keyMatch user req.leagueId req.gameId hsel]
          exact hkey'
        have : r₀ ∈ picks.filter (pickKeyMatch user req.leagueId req.gameId) :=
          List.mem_filter.mpr ⟨hp, hkr⟩
        have hpos := List.length_pos.mpr (List.ne_nil_of_mem this)
        unfold keyCount at hc0
        omega
      · simp only [List.mem_singleton] at hp
        subst hp
        obtain ⟨hs1, -, -, -, hs5, hs6, hs7⟩ := hsel
        refine ⟨hs1, ?_, ?_, ?_⟩
        · rw [hs5, hpr]; rfl
        · rw [hs6, hpr]; rfl
        · rw [hs7, hpr]; rfl
    · rw [hpicks', lockIfComplete_ids, List.map_append]
      simp only [List.map_cons, List.map_nil]
      rw [List.nodup_append]
      refine ⟨hid, List.nodup_singleton _, ?_⟩
      intro a ha hb
      simp only [List.mem_singleton] at hb
      subst hb
      have hfr := hfresh hfound
      have hprid : pr.id = freshId := by rw [hpr]; rfl
      rw [hprid] at ha
      exact hfr ha
    · intro e' he'
      rw [hfound] at he'
      cases he'

/-- Claim C9: two successful `submitPick` calls for the same (user, league,
game) key — starting from a store satisfying the unique-key and unique-id
constraints — leave exactly one pick row for that key, and that row keeps the
first call's row id (updated in place, no duplicate) while carrying the
second call's selection. -/
theorem submit_pick_upsert (user : String) (req₁ req₂ : SubmitReq) (id₁ id₂ : String)
    (now₁ now₂ : Int) (ms : List Membership) (games : List GameRow)
    (players : List PlayerRow) (picks : List PickRow) (pr₁ pr₂ : PickRow)
    (ht₁ : req₁.targetUserId = none) (ht₂ : req₂.targetUserId = none)
    (hL : req₂.leagueId = req₁.leagueId) (hG : req₂.gameId = req₁.gameId)
    (hkc : keyCount picks user req₁.leagueId req₁.gameId ≤ 1)
    (hid : (picks.map (fun r => r.id)).Nodup)
    (hfresh : id₁ ∉ picks.map (fun r => r.id))
    (hc1 : (submitPick user req₁ id₁ now₁ ms games players picks).result = .ok pr₁)
    (hc2 : (submitPick user req₂ id₂ now₂ ms games players
        (submitPick user req₁ id₁ now₁ ms games players picks).picks).result = .ok pr₂) :
    keyCount (submitPick user req₂ id₂ now₂ ms games players
        (submitPick user req₁ id₁ now₁ ms games players picks).picks).picks
      user req₁.leagueId req₁.gameId = 1
    ∧ ∀ r ∈ (submitPick user req₂ id₂ now₂ ms games players
        (submitPick user req₁ id₁ now₁ ms games players picks).picks).picks,
        pickKeyMatch user req₁.leagueId req₁.gameId r = true →
        r.id = pr₁.id
        ∧ r.playerId = (if req₂.pickType == "team" then none else req₂.playerId)
        ∧ r.playerName = req₂.playerName
        ∧ r.pickType = (if req₂.pickType == "team" then "team" else "player") := by
  obtain ⟨k1, rows1, nodup1, -⟩ := submit_post user req₁ id₁ now₁ ms games players
    picks pr₁ ht₁ hkc hid (fun _ => hfresh) hc1
  have hk2le : 1 ≤ keyCount (submitPick user req₁ id₁ now₁ ms games players picks).picks
      user req₂.leagueId req₂.gameId := by
    rw [hL, hG, k1]
  obtain ⟨e₂, hfind2, hkey2, hmem2⟩ := keyCount_pos_find _ user req₂.leagueId req₂.gameId hk2le
  have hkc2 : keyCount (submitPick user req₁ id₁ now₁ ms games players picks).picks
      user req₂.leagueId req₂.gameId ≤ 1 := by
    rw [hL, hG, k1]
  have hfresh2 : findPick (submitPick user req₁ id₁ now₁ ms games players picks).picks
      user req₂.leagueId req₂.gameId = none →
      id₂ ∉ (submitPick user req₁ id₁ now₁ ms games players picks).picks.map
        (fun r => r.id) := by
    intro hnone
    rw [hnone] at hfind2
    cases hfind2
  obtain ⟨k2, rows2, -, idk2⟩ := submit_post user req₂ id₂ now₂ ms games players
    (submitPick user req₁ id₁ now₁ ms games players picks).picks pr₂ ht₂ hkc2
    nodup1 hfresh2 hc2
  have heid : e₂.id = pr₁.id := by
    rw [hL, hG] at hkey2
    exact (rows1 e₂ hmem2 hkey2).1
  have hpr2id : pr₂.id = e₂.id := idk2 e₂ hfind2
  constructor
  · rw [← hL, ← hG]
    exact k2
  · intro r hr hkr
    have hkr2 : pickKeyMatch user req₂.leagueId req₂.gameId r = true := by
      rw [hL, hG]
      exact hkr
    obtain ⟨ha, hb, hcq, hd⟩ := rows2 r hr hkr2
    exact ⟨by rw [ha, hpr2id, heid], hb, hcq, hd⟩

/-- First call: a team pick. -/
def exC9Req1 : SubmitReq :=
  { leagueId := "l1", gameId := "g1", playerId := none
    playerName := "Red Wings", pickType := "team", targetUserId := none }

/-- Second call, same (user, league, game): a player pick. -/
def exC9Req2 : SubmitReq :=
  { leagueId := "l1", gameId := "g1", playerId := some "pl9"
    playerName := "Niner", pickType := "player", targetUserId := none }

/-- The one member submitting both calls. -/
def exC9Ms : List Membership :=
  [ { leagueId := "l1", userId := "u1", role := "member"
      draftPosition := none, totalPoints := 0 } ]

/-- The game, still before its start. -/
def exC9Games : List GameRow := [{ id := "g1", gameDate := 100, status := "scheduled" }]

/-- The picked player's roster row. -/
def exC9Players : List PlayerRow := [{ id := "pl9" }]

/-- The row the first call creates. -/
def exC9Row1 : PickRow :=
  { id := "pk1", userId := "u1", leagueId := "l1", gameId := "g1"
    playerId := none, playerName := "Red Wings", pickType := "team"
    pointsEarned := 0, lockedAt := none }

/-- The row the second call's update returns (lock stamp from the first
call's all-picked sweep). -/
def exC9Row2 : PickRow :=
  { id := "pk1", userId := "u1", leagueId := "l1", gameId := "g1"
    playerId := some "pl9", playerName := "Niner", pickType := "player"
    pointsEarned := 0, lockedAt := some 50 }

/-- Witness for claim C9: both concrete calls succeed and leave exactly one
row for the key, the first call's row updated in place with the second
call's selection. -/
theorem submit_pick_upsert_witness :
    (submitPick "u1" exC9Req1 "pk1" 50 exC9Ms exC9Games exC9Players []).result
      = .ok exC9Row1
    ∧ (submitPick "u1" exC9Req2 "pk2" 60 exC9Ms exC9Games exC9Players
        (submitPick "u1" exC9Req1 "pk1" 50 exC9Ms exC9Games exC9Players []).picks).result
      = .ok exC9Row2
    ∧ (keyCount (submitPick "u1" exC9Req2 "pk2" 60 exC9Ms exC9Games exC9Players
          (submitPick "u1" exC9Req1 "pk1" 50 exC9Ms exC9Games exC9Players []).picks).picks
        "u1" exC9Req1.leagueId exC9Req1.gameId = 1
      ∧ ∀ r ∈ (submitPick "u1" exC9Req2 "pk2" 60 exC9Ms exC9Games exC9Players
          (submitPick "u1" exC9Req1 "pk1" 50 exC9Ms exC9Games exC9Players []).picks).picks,
          pickKeyMatch "u1" exC9Req1.leagueId exC9Req1.gameId r = true →
          r.id = exC9Row1.id
          ∧ r.playerId = (if exC9Req2.pickType == "team" then none else exC9Req2.playerId)
          ∧ r.playerName = exC9Req2.playerName
          ∧ r.pickType = (if exC9Req2.pickType == "team" then "team" else "player")) :=
  ⟨rfl, rfl,
   submit_pick_upsert "u1" exC9Req1 exC9Req2 "pk1" "pk2" 50 60 exC9Ms exC9Games
     exC9Players [] exC9Row1 exC9Row2 rfl rfl rfl rfl (by decide) (by decide)
     (by decide) rfl rfl⟩

end LTL
